import Mathlib

/-!
# LCARS desktop shell: theme resolver, widget drawing, display and start-up

A shallow embedding of `theme.c`, `lcars.c`, `widgets.c`, `display.c` and
`main.c` of `pkgs/lcars-desktop/src`, with the properties of the
specification proved about it.

Conventions of the embedding.

* A C string (`char *`) is a Lean `String`; a pointer that may be `NULL` is
  an `Option`.  `strcmp (a, b) == 0` is equality of the two strings.
* `double` and `float` values are rationals: the values are finite.  The
  arithmetic on `double` values is taken exactly (no rounding).  The one
  computation in `float` that is embedded, the product `width * value` of
  `lcars_draw_status_bar`, is rounded as IEEE 754 binary32 does, to nearest
  with ties to even, both in the conversion of `width` to `float` and in the
  product (every `float` operation is evaluated in `float`, as on x86-64 and
  aarch64); the exponent range is not bounded above (no infinities).  `int`
  values are integers; a result outside the range of `int` is undefined in C
  and is not given a meaning here, except in `lcars_button_contains`, where
  the sums wrap around, and in the conversion of a `long` to `int`.
* `unsigned int` is a natural number below `2 ^ 32`.
* `malloc` may fail: each allocation takes a boolean that says whether it
  succeeded.  `strdup` is taken to succeed (the source never tests it).
* The `LCARS_COLOR_*` macros are defined in `config.h`; their values are a
  parameter of `theme_create`.
* A drawing function is the list of the cairo calls that it issues, in
  order.  What pango measures for a text is a parameter.
* What the display server and the graphics stack answer at start-up is a
  parameter of `main`.
-/

namespace Lcars

/-! ## libc: character classes and `sscanf (s, "%x", &rgb)` -/

/-- The `isspace` of the C locale: space, `\t`, `\n`, `\v`, `\f`, `\r`. -/
def isspace (c : Char) : Bool :=
  c.toNat == 32 || (9 ≤ c.toNat && c.toNat ≤ 13)

/-- The `isxdigit` of libc: `0`-`9`, `A`-`F`, `a`-`f`. -/
def isxdigit (c : Char) : Bool :=
  (48 ≤ c.toNat && c.toNat ≤ 57) || (65 ≤ c.toNat && c.toNat ≤ 70) ||
    (97 ≤ c.toNat && c.toNat ≤ 102)

/-- Value of a hexadecimal digit (0 for any other character). -/
def xdigit_value (c : Char) : Nat :=
  if 48 ≤ c.toNat ∧ c.toNat ≤ 57 then c.toNat - 48
  else if 65 ≤ c.toNat ∧ c.toNat ≤ 70 then c.toNat - 55
  else if 97 ≤ c.toNat ∧ c.toNat ≤ 102 then c.toNat - 87
  else 0

/-- Value of a run of hexadecimal digits, most significant first. -/
def hex_value (ds : List Char) : Nat :=
  ds.foldl (fun acc c => acc * 16 + xdigit_value c) 0

/-- The `strtoul (buf, &end, 16)` that `sscanf` applies to the digits it
collected, on a platform whose `unsigned long` has 64 bits: a value that does
not fit saturates at `ULONG_MAX`, and a leading `-` negates modulo `2 ^ 64`. -/
def strtoul_16 (neg : Bool) (ds : List Char) : Nat :=
  let v := hex_value ds
  if 2 ^ 64 ≤ v then 2 ^ 64 - 1
  else if neg then (2 ^ 64 - v) % 2 ^ 64
  else v

/-- Removes an optional sign (45 is `-`, 43 is `+`); the boolean tells whether
it was `-`. -/
def scan_sign : List Char → Bool × List Char
  | c :: cs =>
    if c.toNat = 45 then (true, cs)
    else if c.toNat = 43 then (false, cs)
    else (false, c :: cs)
  | [] => (false, [])

/-- Removes an optional `0x` / `0X` (48 is `0`, 120 is `x`, 88 is `X`).  The
boolean tells whether a `0` was read: glibc keeps that `0` as a digit of the
number, so that `0x` followed by no digit still converts (to 0). -/
def scan_hex_lead : List Char → Bool × List Char
  | c :: cs =>
    if c.toNat = 48 then
      match cs with
      | d :: ds => if d.toNat = 120 ∨ d.toNat = 88 then (true, ds) else (true, d :: ds)
      | [] => (true, [])
    else (false, c :: cs)
  | [] => (false, [])

/-- The call `sscanf (s, "%x", &rgb)` as glibc performs it: white space is
skipped, then an optional sign and an optional `0x`, and the longest run of
hexadecimal digits is read.  The result is `some rgb` when the call returns 1
(one item converted, `rgb` being the `unsigned int` stored) and `none` when
it returns 0 or `EOF`. -/
def sscanf_x (s : List Char) : Option Nat :=
  let sign := scan_sign (s.dropWhile isspace)
  let lead := scan_hex_lead sign.2
  let ds := lead.2.takeWhile isxdigit
  if lead.1 = false ∧ ds = [] then none
  else some (strtoul_16 sign.1 ds % 2 ^ 32)

/-! ## theme.h / theme.c -/

/-- The `struct theme_data` of `theme.h`: eight `char *` fields. -/
structure theme_data where
  mode : Option String
  primary : Option String
  secondary : Option String
  accent : Option String
  background : Option String
  text : Option String
  warning : Option String
  danger : Option String
  deriving DecidableEq

/-- The four palette macros that `theme.c` takes from `config.h`. -/
structure config_h where
  LCARS_COLOR_PRIMARY : String
  LCARS_COLOR_SECONDARY : String
  LCARS_COLOR_ACCENT : String
  LCARS_COLOR_BACKGROUND : String
  deriving DecidableEq

/-- The step `if (hex[0] == '#') hex++` of `hex_to_rgb` (35 is `#`). -/
def skip_hash : List Char → List Char
  | c :: cs => if c.toNat = 35 then cs else c :: cs
  | [] => []

/-- The four channels that `hex_to_rgb` writes through its out-pointers. -/
structure rgba where
  r : ℚ
  g : ℚ
  b : ℚ
  a : ℚ
  deriving DecidableEq

/-- The `hex_to_rgb` of `theme.c`: `none` is the return value -1, `some` is
the return value 0 together with the four stored channels.  (The four
out-pointers are addresses of locals at every call site, never `NULL`.) -/
def hex_to_rgb (hex : Option String) : Option rgba :=
  match hex with
  | none => none
  | some h =>
    match sscanf_x (skip_hash h.data) with
    | none => none
    | some rgb =>
      some {
        r := (((rgb >>> 16) &&& 0xFF : Nat) : ℚ) / 255
        g := (((rgb >>> 8) &&& 0xFF : Nat) : ℚ) / 255
        b := ((rgb &&& 0xFF : Nat) : ℚ) / 255
        a := 1 }

/-- The `theme_create` of `theme.c`; `malloc_ok` says whether the `malloc` of
the structure succeeded, `none` is the `NULL` result. -/
def theme_create (cfg : config_h) (malloc_ok : Bool) (mode : String) : Option theme_data :=
  if malloc_ok = false then none
  else if mode = "starfleet" then
    some {
      mode := some mode
      primary := some cfg.LCARS_COLOR_PRIMARY
      secondary := some cfg.LCARS_COLOR_SECONDARY
      accent := some cfg.LCARS_COLOR_ACCENT
      background := some cfg.LCARS_COLOR_BACKGROUND
      text := some "#FFFFFF"
      warning := some "#FFCC99"
      danger := some "#CC6666" }
  else if mode = "section31" then
    some {
      mode := some mode
      primary := some "#333333"
      secondary := some "#1a1a1a"
      accent := some "#666666"
      background := some "#000000"
      text := some "#cccccc"
      warning := some "#990000"
      danger := some "#ff0000" }
  else if mode = "borg" then
    some {
      mode := some mode
      primary := some "#00FF00"
      secondary := some "#008800"
      accent := some "#004400"
      background := some "#000000"
      text := some "#00FF00"
      warning := some "#FFFF00"
      danger := some "#FF0000" }
  else if mode = "terran" then
    some {
      mode := some mode
      primary := some "#FFD700"
      secondary := some "#8B4513"
      accent := some "#FF6347"
      background := some "#000000"
      text := some "#FFD700"
      warning := some "#FF4500"
      danger := some "#DC143C" }
  else if mode = "holodeck" then
    some {
      mode := some mode
      primary := some "#00BFFF"
      secondary := some "#87CEEB"
      accent := some "#B0E0E6"
      background := some "#001133"
      text := some "#FFFFFF"
      warning := some "#FFD700"
      danger := some "#FF6347" }
  else
    some {
      mode := some mode
      primary := some cfg.LCARS_COLOR_PRIMARY
      secondary := some cfg.LCARS_COLOR_SECONDARY
      accent := some cfg.LCARS_COLOR_ACCENT
      background := some cfg.LCARS_COLOR_BACKGROUND
      text := some "#FFFFFF"
      warning := some "#FFCC99"
      danger := some "#CC6666" }

/-- The `theme_get_color` of `theme.c`. -/
def theme_get_color (theme : Option theme_data) (color_key : Option String) : Option String :=
  match theme, color_key with
  | some t, some k =>
    if k = "primary" then t.primary
    else if k = "secondary" then t.secondary
    else if k = "accent" then t.accent
    else if k = "background" then t.background
    else if k = "text" then t.text
    else if k = "warning" then t.warning
    else if k = "danger" then t.danger
    else some "#000000"
  | _, _ => some "#000000"

/-- The `theme_get_red` of `theme.c`. -/
def theme_get_red (theme : Option theme_data) (color_key : Option String) : ℚ :=
  match hex_to_rgb (theme_get_color theme color_key) with
  | none => 0
  | some c => c.r

/-- The `theme_get_green` of `theme.c`. -/
def theme_get_green (theme : Option theme_data) (color_key : Option String) : ℚ :=
  match hex_to_rgb (theme_get_color theme color_key) with
  | none => 0
  | some c => c.g

/-- The `theme_get_blue` of `theme.c`. -/
def theme_get_blue (theme : Option theme_data) (color_key : Option String) : ℚ :=
  match hex_to_rgb (theme_get_color theme color_key) with
  | none => 0
  | some c => c.b

/-- The `theme_get_alpha` of `theme.c`. -/
def theme_get_alpha (theme : Option theme_data) (color_key : Option String) : ℚ :=
  match hex_to_rgb (theme_get_color theme color_key) with
  | none => 1
  | some c => c.a

/-- The `theme_set_mode` of `theme.c`: the return value and the contents of
`*theme` afterwards (`none` when `theme` is `NULL`).  When the allocation
inside `theme_create` fails the eight old strings have already been freed;
the record is then returned as it was, its fields being dangling. -/
def theme_set_mode (cfg : config_h) (malloc_ok : Bool) (theme : Option theme_data)
    (mode : Option String) : Int × Option theme_data :=
  match theme, mode with
  | some t, some m =>
    match theme_create cfg malloc_ok m with
    | none => (-1, some t)
    | some new_theme =>
      (0, some { t with
        mode := new_theme.mode
        primary := new_theme.primary
        secondary := new_theme.secondary
        accent := new_theme.accent
        background := new_theme.background
        text := new_theme.text
        warning := new_theme.warning
        danger := new_theme.danger })
  | _, _ => (-1, theme)

/-- The seven colour slots of a theme, in the order primary, secondary,
accent, background, text, warning, danger. -/
def theme_slots (t : theme_data) : List (Option String) :=
  [t.primary, t.secondary, t.accent, t.background, t.text, t.warning, t.danger]

/-- The seven slot names that `theme_get_color` recognizes. -/
def slot_names : List String :=
  ["primary", "secondary", "accent", "background", "text", "warning", "danger"]

/-- A hex colour in the sense of the specification: an optional leading `#`
followed by exactly six hexadecimal digits. -/
def well_formed_hex (s : String) : Bool :=
  (skip_hash s.data).length == 6 && (skip_hash s.data).all isxdigit

/-- A hex colour written with its `#`: `#` followed by exactly six
hexadecimal digits. -/
def hash_hex_color (s : String) : Bool :=
  match s.data with
  | c :: cs => c.toNat == 35 && cs.length == 6 && cs.all isxdigit
  | [] => false

/-- What `sscanf` needs to convert anything: after the optional `#`, any
white space and an optional sign, the text continues with a hexadecimal
digit. -/
def starts_hex_number (s : String) : Bool :=
  match (scan_sign ((skip_hash s.data).dropWhile isspace)).2 with
  | c :: _ => isxdigit c
  | [] => false

/-! ## lcars.c: the drawing primitives, as the list of cairo calls issued -/

/-- One call on the cairo context.  Coordinates are the `double` arguments of
the call; the two angles of `arc` are given in units of `degrees = M_PI / 180`;
`show_layout` stands for the pango layout with its font and text. -/
inductive cairo_op where
  | save
  | restore
  | set_source_rgba (r g b a : ℚ)
  | paint
  | rectangle (x y width height : ℚ)
  | new_sub_path
  | arc (xc yc radius angle1 angle2 : ℚ)
  | close_path
  | fill
  | move_to (x y : ℚ)
  | show_layout (font text : String)
  deriving DecidableEq

/-- The `draw_rounded_rect` of `lcars.c`. -/
def draw_rounded_rect (x y width height radius : ℚ) : List cairo_op :=
  [ cairo_op.new_sub_path,
    cairo_op.arc (x + width - radius) (y + radius) radius (-90) 0,
    cairo_op.arc (x + width - radius) (y + height - radius) radius 0 90,
    cairo_op.arc (x + radius) (y + height - radius) radius 90 180,
    cairo_op.arc (x + radius) (y + radius) radius 180 270,
    cairo_op.close_path ]

/-- The `cairo_set_source_rgba` call with the four channels of a slot. -/
def set_source_slot (theme : Option theme_data) (color_key : Option String) : cairo_op :=
  cairo_op.set_source_rgba (theme_get_red theme color_key) (theme_get_green theme color_key)
    (theme_get_blue theme color_key) (theme_get_alpha theme color_key)

/-- Conversion of a floating value to `int`: the fraction is discarded
(truncation toward zero). -/
def c_trunc (q : ℚ) : Int :=
  if 0 ≤ q then ⌊q⌋ else ⌈q⌉

/-- Rounding of a rational to the nearest integer, a tie going to the even
neighbour. -/
def round_half_even (q : ℚ) : Int :=
  if q - ⌊q⌋ < 1 / 2 then ⌊q⌋
  else if 1 / 2 < q - ⌊q⌋ then ⌊q⌋ + 1
  else if ⌊q⌋ % 2 = 0 then ⌊q⌋
  else ⌊q⌋ + 1

/-- The exponent of the unit in the last place at `q` of the binary
floating-point format with `p` significant bits whose subnormal numbers are
the multiples of `2 ^ emin`: `q` lies in the binade of `2 ^ Int.log 2 |q|`. -/
def ulp_exponent (p : Nat) (emin : Int) (q : ℚ) : Int :=
  max (Int.log 2 |q| - ((p : Int) - 1)) emin

/-- Rounding to the nearest number of the binary floating-point format with
`p` significant bits, ties to even (the rounding of IEEE 754 that C uses by
default).  The exponent range is not bounded above. -/
def round_binary (p : Nat) (emin : Int) (q : ℚ) : ℚ :=
  (round_half_even (q / 2 ^ ulp_exponent p emin q) : ℚ) * 2 ^ ulp_exponent p emin q

/-- Rounding to `float`, IEEE 754 binary32: 24 significant bits, subnormal
numbers the multiples of `2 ^ (-149)`. -/
def f32_round (q : ℚ) : ℚ := round_binary 24 (-149) q

/-- Rounding to `double`, IEEE 754 binary64: 53 significant bits, subnormal
numbers the multiples of `2 ^ (-1074)`. -/
def f64_round (q : ℚ) : ℚ := round_binary 53 (-1074) q

/-- The local `int value_width = width * value;` of `lcars_draw_status_bar`,
`value` being a `float`: `width` is converted to `float`, the product is
formed in `float`, hence rounded, and the result is converted to `int`. -/
def value_width (width : Int) (value : ℚ) : Int :=
  c_trunc (f32_round (f32_round (width : ℚ) * value))

/-- The `lcars_draw_status_bar` of `lcars.c`; `height / 2` is the integer
division of C. -/
def lcars_draw_status_bar (x y width height : Int) (value : ℚ) (theme : Option theme_data)
    (color_key : Option String) : List cairo_op :=
  [cairo_op.save, set_source_slot theme (some "background")]
    ++ draw_rounded_rect x y width height (Int.tdiv height 2)
    ++ [cairo_op.fill, set_source_slot theme color_key]
    ++ (if value_width width value > 0 then
          draw_rounded_rect x y (value_width width value) height (Int.tdiv height 2)
            ++ [cairo_op.fill]
        else [])
    ++ [cairo_op.restore]

/-! ## widgets.c -/

/-- The `lcars_status_bar_t` of `widgets.c`. -/
structure lcars_status_bar_t where
  x : Int
  y : Int
  width : Int
  height : Int
  value : ℚ
  color_key : Option String
  label : Option String
  deriving DecidableEq

/-- The `lcars_status_bar_set_value` of `widgets.c`: the contents of
`*status_bar` afterwards (`none` for a `NULL` pointer, where nothing is
done). -/
def lcars_status_bar_set_value (status_bar : Option lcars_status_bar_t) (value : ℚ) :
    Option lcars_status_bar_t :=
  match status_bar with
  | some s => some { s with value := if value < 0 then 0 else (if value > 1 then 1 else value) }
  | none => none

/-- The saturation of the specification: `clamp (v, 0, 1)`. -/
def clamp01 (v : ℚ) : ℚ :=
  max 0 (min v 1)

/-! ## libc: `strtol (s, &end, 10)` and `atoi` -/

/-- The `isdigit` of libc: `0`-`9`. -/
def isdigit (c : Char) : Bool :=
  48 ≤ c.toNat && c.toNat ≤ 57

/-- Value of a run of decimal digits, most significant first. -/
def dec_value (ds : List Char) : Nat :=
  ds.foldl (fun acc c => acc * 10 + (c.toNat - 48)) 0

/-- The call `strtol (s, &end, 10)` with a 64-bit `long`: white space is
skipped, then an optional sign, and the longest run of decimal digits is
converted, saturating at `LONG_MAX` and `LONG_MIN`.  The result is the value
returned and the text at `end`; when there is no digit the value is 0 and
`end` is `s` itself. -/
def strtol_10 (s : List Char) : Int × List Char :=
  let sign := scan_sign (s.dropWhile isspace)
  let ds := sign.2.takeWhile isdigit
  if ds = [] then (0, s)
  else
    let v : Int := (dec_value ds : Nat)
    let r : Int :=
      if sign.1 then (if v > 2 ^ 63 then -(2 ^ 63) else -v)
      else (if v > 2 ^ 63 - 1 then 2 ^ 63 - 1 else v)
    (r, sign.2.dropWhile isdigit)

/-- Conversion of a `long` to `int` on assignment: the value is reduced
modulo `2 ^ 32` into the range of `int` (what gcc and clang do). -/
def long_to_int (z : Int) : Int :=
  (z + 2 ^ 31) % 2 ^ 32 - 2 ^ 31

/-- The `atoi` of libc: `(int) strtol (s, NULL, 10)`. -/
def atoi (s : String) : Int :=
  long_to_int (strtol_10 s.data).1

/-! ## display.h / display.c -/

/-- The `struct display_config` of `display.h`. -/
structure display_config where
  resolution : Option String
  width : Int
  height : Int
  refresh_rate : Int
  deriving DecidableEq

/-- The `display_parse_resolution` of `display.c`: the return value and what
has been stored through `width` and `height` (`none` when nothing was
stored).  The two out-pointers are addresses of fields at the call site,
never `NULL`; 120 is `x`, 88 is `X`. -/
def display_parse_resolution (resolution : Option String) : Int × Option Int × Option Int :=
  match resolution with
  | none => (-1, none, none)
  | some r =>
    let width := long_to_int (strtol_10 r.data).1
    match (strtol_10 r.data).2 with
    | [] => (-1, some width, none)
    | c :: rest =>
      if c.toNat ≠ 120 ∧ c.toNat ≠ 88 then (-1, some width, none)
      else
        let height := long_to_int (strtol_10 rest).1
        if width ≤ 0 ∨ height ≤ 0 then (-1, some width, some height)
        else (0, some width, some height)

/-- The `display_config_create` of `display.c`; `malloc_ok` says whether the
`malloc` of the structure succeeded, `none` is the `NULL` result. -/
def display_config_create (malloc_ok : Bool) (resolution : String) (refresh_rate : Int) :
    Option display_config :=
  if malloc_ok = false then none
  else
    match display_parse_resolution (some resolution) with
    | (0, some width, some height) =>
      some {
        resolution := some resolution
        width := width
        height := height
        refresh_rate := refresh_rate }
    | _ => none

/-- The table `modes` of `display_get_modes` in `display.c`, without its
terminating `NULL`. -/
def display_get_modes : List String :=
  [ "1920x1080",
    "1680x1050",
    "1600x900",
    "1440x900",
    "1366x768",
    "1280x1024",
    "1280x800",
    "1280x720",
    "1024x768",
    "800x600" ]

/-- The loop of `display_set_mode` over the entries that are left. -/
def display_set_mode_loop : List String → String → Int
  | [], _ => -1
  | m :: ms, mode => if m = mode then 0 else display_set_mode_loop ms mode

/-- The `display_set_mode` of `display.c`. -/
def display_set_mode (mode : String) : Int :=
  display_set_mode_loop display_get_modes mode

/-! ## lcars.c: panels, buttons, text and the main interface -/

/-- The `PANGO_SCALE` of pango: pango units per device unit. -/
def PANGO_SCALE : Int := 1024

/-- The `lcars_draw_panel` of `lcars.c`. -/
def lcars_draw_panel (x y width height : Int) (theme : Option theme_data)
    (color_key : Option String) : List cairo_op :=
  [cairo_op.save, set_source_slot theme color_key]
    ++ draw_rounded_rect x y width height 10
    ++ [cairo_op.fill, cairo_op.restore]

/-- The `lcars_draw_button` of `lcars.c`.  The function `pango_layout_get_size`
gives, for a font description and a text, the width and height that pango
measures, in pango units; the divisions are the integer divisions of C. -/
def lcars_draw_button (pango_layout_get_size : String → String → Int × Int)
    (x y width height radius : Int) (theme : Option theme_data) (color_key : Option String)
    (label : String) : List cairo_op :=
  let text_width := Int.tdiv (pango_layout_get_size "LCARS 12" label).1 PANGO_SCALE
  let text_height := Int.tdiv (pango_layout_get_size "LCARS 12" label).2 PANGO_SCALE
  [cairo_op.save, set_source_slot theme color_key]
    ++ draw_rounded_rect x y width height radius
    ++ [cairo_op.fill, set_source_slot theme (some "text"),
        cairo_op.move_to ((x + Int.tdiv (width - text_width) 2 : Int) : ℚ)
          ((y + Int.tdiv (height - text_height) 2 : Int) : ℚ),
        cairo_op.show_layout "LCARS 12" label,
        cairo_op.restore]

/-- The `lcars_draw_text` of `lcars.c`; the font description is the result of
`snprintf (font_str, 32, "LCARS %d", size)`. -/
def lcars_draw_text (x y : Int) (theme : Option theme_data) (color_key : Option String)
    (text : String) (size : Int) : List cairo_op :=
  [cairo_op.save, set_source_slot theme color_key,
    cairo_op.move_to x y,
    cairo_op.show_layout ("LCARS " ++ toString size) text,
    cairo_op.restore]

/-- One statement of the body of `lcars_draw_main_interface`: a direct call
on the cairo context or a call of one of the four drawing functions, with its
arguments (the context and the theme, which every call receives unchanged,
are left out). -/
inductive lcars_call where
  | set_source (color_key : String)
  | rectangle (x y width height : Int)
  | fill
  | panel (x y width height : Int) (color_key : String)
  | button (x y width height radius : Int) (color_key label : String)
  | text (x y : Int) (color_key text : String) (size : Int)
  | status_bar (x y width height : Int) (value : ℚ) (color_key : String)
  deriving DecidableEq

/-- The body of `lcars_draw_main_interface` in `lcars.c`, statement by
statement.  The fill fractions are the `float` values that the parameter
`float value` receives from the literals `0.75`, `0.50`, `0.90` and `0.30`:
the first two are exact, `0.90` becomes `7549747 / 2 ^ 23` and `0.30`
becomes `5033165 / 2 ^ 24`. -/
def lcars_draw_main_interface_body (width height : Int) : List lcars_call :=
  [ lcars_call.set_source "primary",
    lcars_call.rectangle 0 0 width 60,
    lcars_call.fill,
    lcars_call.rectangle 0 60 200 (height - 60),
    lcars_call.fill,
    lcars_call.rectangle 200 (height - 60) (width - 200) 60,
    lcars_call.fill,
    lcars_call.set_source "secondary",
    lcars_call.panel (width - 300) 80 280 200 "secondary",
    lcars_call.panel 220 80 (width - 540) (height - 200) "accent",
    lcars_call.panel 220 (height - 100) 300 40 "secondary",
    lcars_call.button 20 80 160 40 10 "accent" "LCARS MAIN",
    lcars_call.button 20 140 160 40 10 "accent" "SYSTEMS",
    lcars_call.button 20 200 160 40 10 "accent" "SENSORS",
    lcars_call.button 20 260 160 40 10 "accent" "TACTICAL",
    lcars_call.button 20 320 160 40 10 "accent" "OPERATIONS",
    lcars_call.button 20 380 160 40 10 "warning" "SECURITY",
    lcars_call.button 20 440 160 40 10 "danger" "RED ALERT",
    lcars_call.text 20 40 "text" "STARFLEET OS" 18,
    lcars_call.text (width - 200) 40 "text" "LCARS INTERFACE" 16,
    lcars_call.status_bar (width - 280) 100 240 20 (3 / 4) "accent",
    lcars_call.status_bar (width - 280) 140 240 20 (1 / 2) "accent",
    lcars_call.status_bar (width - 280) 180 240 20 (7549747 / 8388608) "accent",
    lcars_call.status_bar (width - 280) 220 240 20 (5033165 / 16777216) "warning" ]

/-- The cairo calls that one statement of the body issues. -/
def run_call (pango_layout_get_size : String → String → Int × Int)
    (theme : Option theme_data) : lcars_call → List cairo_op
  | lcars_call.set_source color_key => [set_source_slot theme (some color_key)]
  | lcars_call.rectangle x y width height => [cairo_op.rectangle x y width height]
  | lcars_call.fill => [cairo_op.fill]
  | lcars_call.panel x y width height color_key =>
    lcars_draw_panel x y width height theme (some color_key)
  | lcars_call.button x y width height radius color_key label =>
    lcars_draw_button pango_layout_get_size x y width height radius theme (some color_key) label
  | lcars_call.text x y color_key text size =>
    lcars_draw_text x y theme (some color_key) text size
  | lcars_call.status_bar x y width height value color_key =>
    lcars_draw_status_bar x y width height value theme (some color_key)

/-- The `lcars_draw_main_interface` of `lcars.c`: the cairo calls of its body,
in order. -/
def lcars_draw_main_interface (pango_layout_get_size : String → String → Int × Int)
    (width height : Int) (theme : Option theme_data) : List cairo_op :=
  (lcars_draw_main_interface_body width height).flatMap
    (run_call pango_layout_get_size theme)

/-- The five kinds of primitive of the fixed composition. -/
inductive primitive_kind where
  | band
  | panel
  | button
  | text
  | status_bar
  deriving DecidableEq

/-- The primitive that a statement of the body draws: a `cairo_rectangle`
is a structural band, the calls of the four drawing functions are the
primitive of their name, and `cairo_set_source_rgba` and `cairo_fill` draw
no primitive of their own. -/
def call_kind : lcars_call → Option primitive_kind
  | lcars_call.set_source _ => none
  | lcars_call.rectangle _ _ _ _ => some primitive_kind.band
  | lcars_call.fill => none
  | lcars_call.panel _ _ _ _ _ => some primitive_kind.panel
  | lcars_call.button _ _ _ _ _ _ _ => some primitive_kind.button
  | lcars_call.text _ _ _ _ _ => some primitive_kind.text
  | lcars_call.status_bar _ _ _ _ _ _ => some primitive_kind.status_bar

/-- The colour slot that a statement of the body names, if any. -/
def call_slot : lcars_call → Option String
  | lcars_call.set_source color_key => some color_key
  | lcars_call.rectangle _ _ _ _ => none
  | lcars_call.fill => none
  | lcars_call.panel _ _ _ _ color_key => some color_key
  | lcars_call.button _ _ _ _ _ color_key _ => some color_key
  | lcars_call.text _ _ color_key _ _ => some color_key
  | lcars_call.status_bar _ _ _ _ _ color_key => some color_key

/-- The buttons among a list of statements. -/
def buttons_of (calls : List lcars_call) : List lcars_call :=
  calls.filter (fun c => call_kind c == some primitive_kind.button)

/-- The status bars among a list of statements. -/
def status_bars_of (calls : List lcars_call) : List lcars_call :=
  calls.filter (fun c => call_kind c == some primitive_kind.status_bar)

/-- Tells whether a cairo call is a `cairo_rectangle`. -/
def is_rectangle : cairo_op → Bool
  | cairo_op.rectangle _ _ _ _ => true
  | _ => false

/-! ## widgets.c: buttons -/

/-- The `lcars_button_t` of `widgets.c`; the callback and its user data are
pointers, kept as opaque numbers. -/
structure lcars_button_t where
  x : Int
  y : Int
  width : Int
  height : Int
  radius : Int
  label : Option String
  color_key : Option String
  state : Int
  callback : Option Nat
  user_data : Option Nat
  deriving DecidableEq

/-- Addition of two `int` values, with the wrap-around of a 32-bit machine
when the sum leaves the range of `int`. -/
def int_add (a b : Int) : Int :=
  long_to_int (a + b)

/-- The range of `int`. -/
def in_int_range (z : Int) : Prop :=
  -(2 ^ 31) ≤ z ∧ z ≤ 2 ^ 31 - 1

/-- The `lcars_button_contains` of `widgets.c`. -/
def lcars_button_contains (button : Option lcars_button_t) (x y : Int) : Int :=
  match button with
  | none => 0
  | some b =>
    if x ≥ b.x ∧ x < int_add b.x b.width ∧ y ≥ b.y ∧ y < int_add b.y b.height then 1 else 0

/-! ## main.c -/

/-- The three locals that the argument loop of `main` sets. -/
structure cli_settings where
  mode : String
  resolution : String
  refresh_rate : Int
  deriving DecidableEq

/-- The initial values of the three locals of `main`. -/
def default_settings : cli_settings :=
  { mode := "starfleet", resolution := "1920x1080", refresh_rate := 60 }

/-- The argument loop of `main`, from the argument at index `i` on: a flag
that has a value after it consumes both, anything else is stepped over. -/
def parse_args : List String → cli_settings → cli_settings
  | [], s => s
  | [_], s => s
  | a :: v :: rest, s =>
    if a = "--mode" then parse_args rest { s with mode := v }
    else if a = "--resolution" then parse_args rest { s with resolution := v }
    else if a = "--refresh" then parse_args rest { s with refresh_rate := atoi v }
    else parse_args (v :: rest) s

/-- What a run of `main` comes to: the theme and configuration it stored in
`state`, whether it went on to `lcars_run` (the event loop), and the status
it returns (on the path through the event loop, the status returned once the
loop has ended). -/
structure main_outcome where
  settings : cli_settings
  theme : Option theme_data
  config : Option display_config
  event_loop_entered : Bool
  exit_status : Int
  deriving DecidableEq

/-- The `main` of `main.c`.  The two booleans `theme_malloc_ok` and
`config_malloc_ok` are the outcomes of the two allocations, and
`init_display_ok` and `init_egl_ok` tell whether `lcars_init_display` and
`lcars_init_egl` returned 0 (they depend on the display server and the
graphics stack only). -/
def main (cfg : config_h) (theme_malloc_ok config_malloc_ok init_display_ok init_egl_ok : Bool)
    (argv : List String) : main_outcome :=
  let settings := parse_args argv.tail default_settings
  let theme := theme_create cfg theme_malloc_ok settings.mode
  let config := display_config_create config_malloc_ok settings.resolution settings.refresh_rate
  if init_display_ok = false then
    { settings := settings, theme := theme, config := config,
      event_loop_entered := false, exit_status := 1 }
  else if init_egl_ok = false then
    { settings := settings, theme := theme, config := config,
      event_loop_entered := false, exit_status := 1 }
  else
    { settings := settings, theme := theme, config := config,
      event_loop_entered := true, exit_status := 0 }

/-! ## Formats of the specification for the resolution string -/

/-- A text does not go on with a decimal digit. -/
def no_digit_ahead (rest : List Char) : Prop :=
  ∀ c cs, rest = c :: cs → isdigit c = false

/-- The strict format of the specification: a run of decimal digits, `x` or
`X`, a run of decimal digits and nothing else, both numbers being positive. -/
def exact_resolution_form (s : String) : Bool :=
  match s.data.dropWhile isdigit with
  | sep :: ds2 =>
    (sep.toNat == 120 || sep.toNat == 88) && ds2.all isdigit
      && decide (0 < dec_value (s.data.takeWhile isdigit)) && decide (0 < dec_value ds2)
  | [] => false

/-- A test for the format that the two `strtol` calls need: optional white
space, an optional sign and at least one decimal digit, then directly `x` or
`X`, then again optional white space, an optional sign and at least one
decimal digit; what follows these digits is free. -/
def relaxed_resolution_form (s : String) : Bool :=
  let a := (scan_sign (s.data.dropWhile isspace)).2
  match a.dropWhile isdigit with
  | sep :: b =>
    !(a.takeWhile isdigit).isEmpty && (sep.toNat == 120 || sep.toNat == 88)
      && !(((scan_sign (b.dropWhile isspace)).2).takeWhile isdigit).isEmpty
  | [] => false

/-- An optional sign: nothing, or the single character `-` (45) or `+` (43). -/
def is_sign_text (sg : List Char) : Prop :=
  sg = [] ∨ ∃ c, sg = [c] ∧ (c.toNat = 45 ∨ c.toNat = 43)

/-- The relaxed format written out: white space, an optional sign, decimal
digits, the separator, white space, an optional sign, decimal digits, and any
text after them. -/
def relaxed_resolution_text (s : List Char) : Prop :=
  ∃ ws1 sg1 ds1 sep ws2 sg2 ds2 rest,
    s = ws1 ++ sg1 ++ ds1 ++ sep :: (ws2 ++ sg2 ++ ds2 ++ rest)
      ∧ (∀ c ∈ ws1, isspace c = true) ∧ is_sign_text sg1
      ∧ ds1 ≠ [] ∧ (∀ c ∈ ds1, isdigit c = true)
      ∧ (sep.toNat = 120 ∨ sep.toNat = 88)
      ∧ (∀ c ∈ ws2, isspace c = true) ∧ is_sign_text sg2
      ∧ ds2 ≠ [] ∧ (∀ c ∈ ds2, isdigit c = true)

/-- The statements of a list that name a given colour slot. -/
def with_slot (key : String) (calls : List lcars_call) : List lcars_call :=
  calls.filter (fun c => call_slot c == some key)

/-! ## Rounded rectangles and bands of the main interface -/

/-- The arguments of one call of `draw_rounded_rect`. -/
structure rounded_rect where
  x : Int
  y : Int
  width : Int
  height : Int
  radius : Int
  deriving DecidableEq

/-- The calls of `draw_rounded_rect` that a statement of the body makes: one
in a panel (radius 10) and in a button, and in a status bar one for the track
and, when `value_width > 0`, one for the filled portion, both with radius
`height / 2`. -/
def rounded_rects_of_call : lcars_call → List rounded_rect
  | lcars_call.set_source _ => []
  | lcars_call.rectangle _ _ _ _ => []
  | lcars_call.fill => []
  | lcars_call.panel x y width height _ => [⟨x, y, width, height, 10⟩]
  | lcars_call.button x y width height radius _ _ => [⟨x, y, width, height, radius⟩]
  | lcars_call.text _ _ _ _ _ => []
  | lcars_call.status_bar x y width height value _ =>
    ⟨x, y, width, height, Int.tdiv height 2⟩ ::
      (if value_width width value > 0 then
        [⟨x, y, value_width width value, height, Int.tdiv height 2⟩]
      else [])

/-- The calls of `draw_rounded_rect` of the whole main interface, in order. -/
def main_interface_rounded_rects (width height : Int) : List rounded_rect :=
  (lcars_draw_main_interface_body width height).flatMap rounded_rects_of_call

/-- Tells whether a cairo call builds a path (`cairo_new_sub_path`,
`cairo_arc`, `cairo_close_path`); only `draw_rounded_rect` issues these. -/
def is_path_op : cairo_op → Bool
  | cairo_op.new_sub_path => true
  | cairo_op.arc _ _ _ _ _ => true
  | cairo_op.close_path => true
  | _ => false

/-- The condition of the specification on a rounded rectangle: the radius
does not exceed half of the smaller of width and height. -/
def radius_fits (r : rounded_rect) : Prop :=
  (r.radius : ℚ) ≤ min (r.width : ℚ) (r.height : ℚ) / 2

/-- An axis-aligned rectangle of pixels: `(x, y, width, height)`. -/
structure rect where
  x : Int
  y : Int
  width : Int
  height : Int
  deriving DecidableEq

/-- Tells whether the pixel `(px, py)` lies in a rectangle. -/
def rect.contains (r : rect) (px py : Int) : Bool :=
  decide (r.x ≤ px ∧ px < r.x + r.width ∧ r.y ≤ py ∧ py < r.y + r.height)

/-- The rectangles that a list of statements passes to `cairo_rectangle`. -/
def bands_of : List lcars_call → List rect
  | [] => []
  | lcars_call.rectangle x y width height :: cs => ⟨x, y, width, height⟩ :: bands_of cs
  | _ :: cs => bands_of cs

/-- The content rectangle that the three bands leave free. -/
def content_rect (width height : Int) : rect :=
  ⟨200, 60, width - 200, height - 120⟩

/-! ## Lemmas on the scanner -/

theorem isxdigit_iff (c : Char) :
    isxdigit c = true ↔
      (48 ≤ c.toNat ∧ c.toNat ≤ 57) ∨ (65 ≤ c.toNat ∧ c.toNat ≤ 70) ∨
        (97 ≤ c.toNat ∧ c.toNat ≤ 102) := by
  simp [isxdigit, or_assoc]

theorem isspace_iff (c : Char) :
    isspace c = true ↔ c.toNat = 32 ∨ (9 ≤ c.toNat ∧ c.toNat ≤ 13) := by
  simp [isspace]

theorem isspace_of_isxdigit {c : Char} (h : isxdigit c = true) : isspace c = false := by
  rw [isxdigit_iff] at h
  rw [← Bool.not_eq_true, isspace_iff]
  omega

theorem xdigit_value_lt (c : Char) : xdigit_value c < 16 := by
  unfold xdigit_value
  split_ifs <;> omega

theorem hex_value_six (c1 c2 c3 c4 c5 c6 : Char) :
    hex_value [c1, c2, c3, c4, c5, c6]
      = ((((xdigit_value c1 * 16 + xdigit_value c2) * 16 + xdigit_value c3) * 16
          + xdigit_value c4) * 16 + xdigit_value c5) * 16 + xdigit_value c6 := by
  simp [hex_value]

theorem strtoul_16_small {ds : List Char} (h : hex_value ds < 2 ^ 32) :
    strtoul_16 false ds % 2 ^ 32 = hex_value ds := by
  have h64 : ¬ (2 ^ 64 ≤ hex_value ds) := by omega
  simp only [strtoul_16, h64, if_false, Bool.false_eq_true]
  exact Nat.mod_eq_of_lt h

theorem scan_sign_of_isxdigit {c : Char} (cs : List Char) (h : isxdigit c = true) :
    scan_sign (c :: cs) = (false, c :: cs) := by
  rw [isxdigit_iff] at h
  have n45 : c.toNat ≠ 45 := by omega
  have n43 : c.toNat ≠ 43 := by omega
  simp [scan_sign, n45, n43]

theorem scan_hex_lead_of_ne_zero {c : Char} (cs : List Char) (h : c.toNat ≠ 48) :
    scan_hex_lead (c :: cs) = (false, c :: cs) := by
  simp [scan_hex_lead, h]

theorem scan_hex_lead_zero_isxdigit {c d : Char} (ds : List Char) (h : c.toNat = 48)
    (hd : isxdigit d = true) : scan_hex_lead (c :: d :: ds) = (true, d :: ds) := by
  rw [isxdigit_iff] at hd
  have n120 : d.toNat ≠ 120 := by omega
  have n88 : d.toNat ≠ 88 := by omega
  simp [scan_hex_lead, h, n120, n88]

theorem sscanf_x_six {c1 c2 c3 c4 c5 c6 : Char}
    (h1 : isxdigit c1 = true) (h2 : isxdigit c2 = true) (h3 : isxdigit c3 = true)
    (h4 : isxdigit c4 = true) (h5 : isxdigit c5 = true) (h6 : isxdigit c6 = true) :
    sscanf_x [c1, c2, c3, c4, c5, c6] = some (hex_value [c1, c2, c3, c4, c5, c6]) := by
  have hs := isspace_of_isxdigit h1
  have b1 := xdigit_value_lt c1
  have b2 := xdigit_value_lt c2
  have b3 := xdigit_value_lt c3
  have b4 := xdigit_value_lt c4
  have b5 := xdigit_value_lt c5
  have b6 := xdigit_value_lt c6
  have hlt : hex_value [c1, c2, c3, c4, c5, c6] < 2 ^ 24 := by
    rw [hex_value_six]; omega
  by_cases h0 : c1.toNat = 48
  · have v0 : xdigit_value c1 = 0 := by simp [xdigit_value, h0]
    have hv : hex_value [c2, c3, c4, c5, c6] = hex_value [c1, c2, c3, c4, c5, c6] := by
      simp [hex_value, v0]
    simp only [sscanf_x, List.dropWhile, hs, scan_sign_of_isxdigit _ h1,
      scan_hex_lead_zero_isxdigit _ h0 h2, List.takeWhile, h2, h3, h4, h5, h6]
    rw [strtoul_16_small (by omega), hv]
    simp
  · simp only [sscanf_x, List.dropWhile, hs, scan_sign_of_isxdigit _ h1,
      scan_hex_lead_of_ne_zero _ h0, List.takeWhile, h1, h2, h3, h4, h5, h6]
    rw [strtoul_16_small (by omega)]
    simp

theorem list_length_six {l : List Char} (h : l.length = 6) :
    ∃ c1 c2 c3 c4 c5 c6, l = [c1, c2, c3, c4, c5, c6] := by
  rcases l with _ | ⟨c1, _ | ⟨c2, _ | ⟨c3, _ | ⟨c4, _ | ⟨c5, _ | ⟨c6, _ | ⟨c7, l⟩⟩⟩⟩⟩⟩⟩ <;>
    simp at h
  exact ⟨c1, c2, c3, c4, c5, c6, rfl⟩

theorem land_255 (n : Nat) : n &&& 0xFF = n % 256 :=
  Nat.and_pow_two_sub_one_eq_mod n 8

theorem hex_to_rgb_six (s : String) {c1 c2 c3 c4 c5 c6 : Char}
    (hs : skip_hash s.data = [c1, c2, c3, c4, c5, c6])
    (h1 : isxdigit c1 = true) (h2 : isxdigit c2 = true) (h3 : isxdigit c3 = true)
    (h4 : isxdigit c4 = true) (h5 : isxdigit c5 = true) (h6 : isxdigit c6 = true) :
    hex_to_rgb (some s) = some {
      r := ((16 * xdigit_value c1 + xdigit_value c2 : Nat) : ℚ) / 255
      g := ((16 * xdigit_value c3 + xdigit_value c4 : Nat) : ℚ) / 255
      b := ((16 * xdigit_value c5 + xdigit_value c6 : Nat) : ℚ) / 255
      a := 1 } := by
  have b1 := xdigit_value_lt c1
  have b2 := xdigit_value_lt c2
  have b3 := xdigit_value_lt c3
  have b4 := xdigit_value_lt c4
  have b5 := xdigit_value_lt c5
  have b6 := xdigit_value_lt c6
  simp only [hex_to_rgb, hs, sscanf_x_six h1 h2 h3 h4 h5 h6, hex_value_six, land_255,
    Nat.shiftRight_eq_div_pow]
  have e1 : (((((xdigit_value c1 * 16 + xdigit_value c2) * 16 + xdigit_value c3) * 16
      + xdigit_value c4) * 16 + xdigit_value c5) * 16 + xdigit_value c6) / 2 ^ 16 % 256
      = 16 * xdigit_value c1 + xdigit_value c2 := by omega
  have e2 : (((((xdigit_value c1 * 16 + xdigit_value c2) * 16 + xdigit_value c3) * 16
      + xdigit_value c4) * 16 + xdigit_value c5) * 16 + xdigit_value c6) / 2 ^ 8 % 256
      = 16 * xdigit_value c3 + xdigit_value c4 := by omega
  have e3 : (((((xdigit_value c1 * 16 + xdigit_value c2) * 16 + xdigit_value c3) * 16
      + xdigit_value c4) * 16 + xdigit_value c5) * 16 + xdigit_value c6) % 256
      = 16 * xdigit_value c5 + xdigit_value c6 := by omega
  rw [e1, e2, e3]

theorem skip_hash_of_isxdigit {c : Char} (cs : List Char) (h : isxdigit c = true) :
    skip_hash (c :: cs) = c :: cs := by
  rw [isxdigit_iff] at h
  have n35 : c.toNat ≠ 35 := by omega
  simp [skip_hash, n35]

theorem sscanf_x_eq_none_iff (s : List Char) :
    sscanf_x s = none ↔
      (match (scan_sign (s.dropWhile isspace)).2 with
        | c :: _ => isxdigit c
        | [] => false) = false := by
  simp only [sscanf_x]
  generalize (scan_sign (s.dropWhile isspace)).1 = neg
  generalize (scan_sign (s.dropWhile isspace)).2 = s2
  rcases s2 with _ | ⟨c, cs⟩
  · simp [scan_hex_lead]
  · by_cases h0 : c.toNat = 48
    · have hx : isxdigit c = true := by rw [isxdigit_iff]; omega
      rcases cs with _ | ⟨d, ds⟩
      · simp [scan_hex_lead, h0, hx]
      · by_cases hd : d.toNat = 120 ∨ d.toNat = 88 <;> simp [scan_hex_lead, h0, hx, hd]
    · cases hx : isxdigit c <;> simp [scan_hex_lead, h0, hx, List.takeWhile]

theorem hex_to_rgb_some (s : String) :
    hex_to_rgb (some s) = (sscanf_x (skip_hash s.data)).map (fun rgb =>
      { r := (((rgb >>> 16) &&& 0xFF : Nat) : ℚ) / 255
        g := (((rgb >>> 8) &&& 0xFF : Nat) : ℚ) / 255
        b := ((rgb &&& 0xFF : Nat) : ℚ) / 255
        a := 1 }) := by
  simp only [hex_to_rgb]
  cases sscanf_x (skip_hash s.data) <;> rfl

theorem hex_to_rgb_eq_none_iff (s : String) :
    hex_to_rgb (some s) = none ↔ starts_hex_number s = false := by
  rw [hex_to_rgb_some, Option.map_eq_none', sscanf_x_eq_none_iff]
  rfl

theorem hex_to_rgb_bounds {hex : Option String} {c : rgba} (h : hex_to_rgb hex = some c) :
    (0 ≤ c.r ∧ c.r ≤ 1) ∧ (0 ≤ c.g ∧ c.g ≤ 1) ∧ (0 ≤ c.b ∧ c.b ≤ 1) ∧ c.a = 1 := by
  rcases hex with _ | s
  · simp [hex_to_rgb] at h
  · rw [hex_to_rgb_some, Option.map_eq_some'] at h
    obtain ⟨rgb, -, rfl⟩ := h
    simp only [land_255]
    have k1 : (((rgb >>> 16 % 256 : Nat) : ℚ)) ≤ 255 := by
      exact_mod_cast Nat.le_of_lt_succ (Nat.mod_lt _ (by norm_num))
    have k2 : (((rgb >>> 8 % 256 : Nat) : ℚ)) ≤ 255 := by
      exact_mod_cast Nat.le_of_lt_succ (Nat.mod_lt _ (by norm_num))
    have k3 : (((rgb % 256 : Nat) : ℚ)) ≤ 255 := by
      exact_mod_cast Nat.le_of_lt_succ (Nat.mod_lt _ (by norm_num))
    refine ⟨⟨by positivity, ?_⟩, ⟨by positivity, ?_⟩, ⟨by positivity, ?_⟩, trivial⟩
    · rw [div_le_one (by norm_num)]; exact k1
    · rw [div_le_one (by norm_num)]; exact k2
    · rw [div_le_one (by norm_num)]; exact k3

theorem hex_to_rgb_of_hash_hex_color {s : String} (h : hash_hex_color s = true) :
    hex_to_rgb (some s) ≠ none ∧ well_formed_hex s = true ∧ s ≠ "" := by
  unfold hash_hex_color at h
  rcases hl : s.data with _ | ⟨c, cs⟩
  · simp [hl] at h
  · simp only [hl, Bool.and_eq_true, beq_iff_eq, List.all_eq_true] at h
    obtain ⟨⟨h35, hlen⟩, hall⟩ := h
    obtain ⟨c1, c2, c3, c4, c5, c6, rfl⟩ := list_length_six hlen
    have hs : skip_hash s.data = [c1, c2, c3, c4, c5, c6] := by
      simp [hl, skip_hash, h35]
    have hx : ∀ x ∈ [c1, c2, c3, c4, c5, c6], isxdigit x = true := hall
    simp only [List.mem_cons, List.mem_singleton, forall_eq_or_imp, forall_eq,
      List.not_mem_nil, false_imp_iff, implies_true, and_true] at hx
    obtain ⟨h1, h2, h3, h4, h5, h6⟩ := hx
    refine ⟨?_, ?_, ?_⟩
    · rw [hex_to_rgb_six s hs h1 h2 h3 h4 h5 h6]
      exact Option.some_ne_none _
    · simp [well_formed_hex, hs, h1, h2, h3, h4, h5, h6]
    · rintro rfl
      simp at hl


/-! ## Lemmas on the status bar -/

theorem c_trunc_nonpos {q : ℚ} (h : q ≤ 0) : c_trunc q ≤ 0 := by
  unfold c_trunc
  split_ifs with h0
  · have : q = 0 := le_antisymm h h0
    simp [this]
  · exact Int.ceil_le.2 (by exact_mod_cast h)

theorem c_trunc_intCast (n : Int) : c_trunc (n : ℚ) = n := by
  unfold c_trunc
  split_ifs <;> simp

/-! ## Lemmas on rounding to `float` and on `value_width` -/

theorem round_half_even_intCast (n : Int) : round_half_even (n : ℚ) = n := by
  simp [round_half_even]

theorem floor_le_round_half_even (q : ℚ) : ⌊q⌋ ≤ round_half_even q := by
  unfold round_half_even
  split_ifs <;> omega

theorem round_half_even_le_floor_succ (q : ℚ) : round_half_even q ≤ ⌊q⌋ + 1 := by
  unfold round_half_even
  split_ifs <;> omega

theorem round_half_even_mono {a b : ℚ} (h : a ≤ b) : round_half_even a ≤ round_half_even b := by
  have hf : ⌊a⌋ ≤ ⌊b⌋ := Int.floor_le_floor h
  rcases lt_or_eq_of_le hf with hlt | heq
  · have h1 := round_half_even_le_floor_succ a
    have h2 := floor_le_round_half_even b
    omega
  · unfold round_half_even
    rw [heq]
    have hab : a - ⌊b⌋ ≤ b - ⌊b⌋ := by linarith
    split_ifs <;> first | omega | (exfalso; linarith)

theorem round_half_even_of_near {q : ℚ} (n : Int) (h1 : (n : ℚ) - 1 / 2 < q)
    (h2 : q < (n : ℚ) + 1 / 2) : round_half_even q = n := by
  have hf1 : n - 1 ≤ ⌊q⌋ := Int.le_floor.2 (by push_cast; linarith)
  have hf2 : ⌊q⌋ < n + 1 := Int.floor_lt.2 (by push_cast; linarith)
  have hc : ⌊q⌋ = n ∨ ⌊q⌋ = n - 1 := by omega
  unfold round_half_even
  rcases hc with hc | hc
  · rw [hc, if_pos (by linarith)]
  · rw [hc]
    push_cast
    rw [if_neg (by linarith), if_pos (by linarith)]
    ring

theorem round_half_even_of_tie {q : ℚ} (n : Int) (h : q = (n : ℚ) + 1 / 2)
    (hn : n % 2 = 0) : round_half_even q = n := by
  have hf : ⌊q⌋ = n := Int.floor_eq_iff.2 ⟨by linarith, by linarith⟩
  unfold round_half_even
  rw [hf, if_neg (by linarith), if_neg (by linarith), if_pos hn]

theorem two_zpow_pos (e : Int) : (0 : ℚ) < 2 ^ e := zpow_pos (by norm_num) e

theorem round_binary_nonneg (p : Nat) (emin : Int) {q : ℚ} (h : 0 ≤ q) :
    0 ≤ round_binary p emin q := by
  unfold round_binary
  have h1 : (0 : ℚ) ≤ q / 2 ^ ulp_exponent p emin q := div_nonneg h (two_zpow_pos _).le
  have h2 := round_half_even_mono h1
  rw [show ((0 : ℚ) = ((0 : Int) : ℚ)) by simp, round_half_even_intCast] at h2
  exact mul_nonneg (by exact_mod_cast h2) (two_zpow_pos _).le

theorem round_binary_nonpos (p : Nat) (emin : Int) {q : ℚ} (h : q ≤ 0) :
    round_binary p emin q ≤ 0 := by
  unfold round_binary
  have h1 : q / 2 ^ ulp_exponent p emin q ≤ (0 : ℚ) := div_nonpos_of_nonpos_of_nonneg h (two_zpow_pos _).le
  have h2 := round_half_even_mono h1
  rw [show ((0 : ℚ) = ((0 : Int) : ℚ)) by simp, round_half_even_intCast] at h2
  exact mul_nonpos_of_nonpos_of_nonneg (by exact_mod_cast h2) (two_zpow_pos _).le

theorem round_binary_of_multiple (p : Nat) (emin : Int) {q : ℚ} (m : Int)
    (h : q = (m : ℚ) * 2 ^ ulp_exponent p emin q) : round_binary p emin q = q := by
  unfold round_binary
  have hd : q / 2 ^ ulp_exponent p emin q = (m : ℚ) := by
    rw [div_eq_iff (two_zpow_pos _).ne']
    exact h
  rw [hd, round_half_even_intCast]
  exact h.symm

theorem log_two_eq {q : ℚ} (k : Int) (h1 : (2 : ℚ) ^ k ≤ |q|) (h2 : |q| < 2 ^ (k + 1)) :
    Int.log 2 |q| = k := by
  have hq : 0 < |q| := (two_zpow_pos k).trans_le h1
  have ha : k ≤ Int.log 2 |q| :=
    (Int.zpow_le_iff_le_log (by norm_num : 1 < 2) hq).1 (by exact_mod_cast h1)
  have hb : Int.log 2 |q| < k + 1 :=
    (Int.lt_zpow_iff_log_lt (by norm_num : 1 < 2) hq).1 (by exact_mod_cast h2)
  omega

theorem round_binary_eval (p : Nat) (emin : Int) {q r : ℚ} (k e n : Int)
    (h1 : (2 : ℚ) ^ k ≤ |q|) (h2 : |q| < 2 ^ (k + 1))
    (he : max (k - ((p : Int) - 1)) emin = e)
    (h3 : round_half_even (q / 2 ^ e) = n) (hr : r = (n : ℚ) * 2 ^ e) :
    round_binary p emin q = r := by
  unfold round_binary ulp_exponent
  rw [log_two_eq k h1 h2, he, h3, hr]

theorem f32_round_intCast (n : Int) (h : |n| ≤ 2 ^ 24) : f32_round (n : ℚ) = n := by
  rcases eq_or_ne n 0 with rfl | hn
  · exact round_binary_of_multiple 24 (-149) 0 (by simp)
  have hq : (0 : ℚ) < |(n : ℚ)| := abs_pos.2 (by exact_mod_cast hn)
  have hn1 : (1 : ℚ) ≤ |(n : ℚ)| := by
    have : 1 ≤ |n| := Int.one_le_abs hn
    exact_mod_cast this
  have hn2 : |(n : ℚ)| ≤ 2 ^ 24 := by exact_mod_cast h
  have ha : 0 ≤ Int.log 2 |(n : ℚ)| :=
    (Int.zpow_le_iff_le_log (by norm_num : 1 < 2) hq).1 (by simpa using hn1)
  have hb : Int.log 2 |(n : ℚ)| < 25 :=
    (Int.lt_zpow_iff_log_lt (by norm_num : 1 < 2) hq).1
      (lt_of_le_of_lt hn2 (by norm_num))
  have he : ulp_exponent 24 (-149) (n : ℚ) = Int.log 2 |(n : ℚ)| - 23 := by
    unfold ulp_exponent
    rw [max_eq_left (by omega)]
    norm_num
  unfold f32_round
  rcases lt_or_eq_of_le (show Int.log 2 |(n : ℚ)| ≤ 24 by omega) with hl | hl
  · obtain ⟨k, hk⟩ := Int.eq_ofNat_of_zero_le (show 0 ≤ 23 - Int.log 2 |(n : ℚ)| by omega)
    have hek : ulp_exponent 24 (-149) (n : ℚ) = -(k : Int) := by omega
    apply round_binary_of_multiple 24 (-149) (n * 2 ^ k)
    rw [hek, zpow_neg, zpow_natCast]
    push_cast
    rw [mul_assoc, mul_inv_cancel₀ (by positivity), mul_one]
  · have ht : (2 : ℚ) ^ (24 : Int) ≤ |(n : ℚ)| := by
      have := Int.zpow_log_le_self (by norm_num : 1 < 2) hq
      rw [hl] at this
      exact_mod_cast this
    have hek : ulp_exponent 24 (-149) (n : ℚ) = 1 := by omega
    have habs : |(n : ℚ)| = 2 ^ 24 := le_antisymm hn2 (by norm_num at ht ⊢; exact ht)
    rcases abs_eq (by norm_num : (0 : ℚ) ≤ 2 ^ 24) |>.1 habs with h1 | h1
    · apply round_binary_of_multiple 24 (-149) (2 ^ 23)
      rw [hek, h1]
      norm_num
    · apply round_binary_of_multiple 24 (-149) (-2 ^ 23)
      rw [hek, h1]
      norm_num

theorem value_width_examples :
    value_width 240 (3 / 4) = 180 ∧ value_width 240 (1 / 2) = 120
      ∧ value_width 240 (7549747 / 8388608) = 216
      ∧ value_width 240 (5033165 / 16777216) = 72
      ∧ value_width 240 (3 / 2) = 360
      ∧ value_width 25 (5368709 / 134217728) = 1
      ∧ value_width 16777217 1 = 16777216 := by
  have h240 : f32_round ((240 : Int) : ℚ) = ((240 : Int) : ℚ) :=
    f32_round_intCast 240 (by decide)
  have h25 : f32_round ((25 : Int) : ℚ) = ((25 : Int) : ℚ) :=
    f32_round_intCast 25 (by decide)
  have e1 : f32_round (((240 : Int) : ℚ) * (3 / 4)) = ((180 : Int) : ℚ) := by
    rw [show ((240 : Int) : ℚ) * (3 / 4) = ((180 : Int) : ℚ) by norm_num]
    exact f32_round_intCast 180 (by decide)
  have e2 : f32_round (((240 : Int) : ℚ) * (1 / 2)) = ((120 : Int) : ℚ) := by
    rw [show ((240 : Int) : ℚ) * (1 / 2) = ((120 : Int) : ℚ) by norm_num]
    exact f32_round_intCast 120 (by decide)
  have e3 : f32_round (((240 : Int) : ℚ) * (7549747 / 8388608)) = ((216 : Int) : ℚ) :=
    round_binary_eval 24 (-149) 7 (-16) 14155776 (by norm_num [abs_of_pos])
      (by norm_num [abs_of_pos]) (by decide)
      (round_half_even_of_near _ (by norm_num) (by norm_num)) (by norm_num)
  have e4 : f32_round (((240 : Int) : ℚ) * (5033165 / 16777216)) = ((72 : Int) : ℚ) :=
    round_binary_eval 24 (-149) 6 (-17) 9437184 (by norm_num [abs_of_pos])
      (by norm_num [abs_of_pos]) (by decide)
      (round_half_even_of_near _ (by norm_num) (by norm_num)) (by norm_num)
  have e5 : f32_round (((240 : Int) : ℚ) * (3 / 2)) = ((360 : Int) : ℚ) := by
    rw [show ((240 : Int) : ℚ) * (3 / 2) = ((360 : Int) : ℚ) by norm_num]
    exact f32_round_intCast 360 (by decide)
  have e6 : f32_round (((25 : Int) : ℚ) * (5368709 / 134217728)) = ((1 : Int) : ℚ) :=
    round_binary_eval 24 (-149) (-1) (-24) 16777216 (by norm_num [abs_of_pos])
      (by norm_num [abs_of_pos]) (by decide)
      (round_half_even_of_near _ (by norm_num) (by norm_num)) (by norm_num)
  have e7 : f32_round ((16777217 : Int) : ℚ) = ((16777216 : Int) : ℚ) :=
    round_binary_eval 24 (-149) 24 1 8388608 (by norm_num [abs_of_pos])
      (by norm_num [abs_of_pos]) (by decide)
      (round_half_even_of_tie _ (by norm_num) (by decide)) (by norm_num)
  refine ⟨?_, ?_, ?_, ?_, ?_, ?_, ?_⟩
  · rw [value_width, h240, e1, c_trunc_intCast]
  · rw [value_width, h240, e2, c_trunc_intCast]
  · rw [value_width, h240, e3, c_trunc_intCast]
  · rw [value_width, h240, e4, c_trunc_intCast]
  · rw [value_width, h240, e5, c_trunc_intCast]
  · rw [value_width, h25, e6, c_trunc_intCast]
  · rw [value_width, e7, mul_one, f32_round_intCast 16777216 (by decide), c_trunc_intCast]


theorem float_of_literals :
    f32_round (f64_round (3 / 4)) = 3 / 4 ∧ f32_round (f64_round (1 / 2)) = 1 / 2
      ∧ f32_round (f64_round (9 / 10)) = 7549747 / 8388608
      ∧ f32_round (f64_round (3 / 10)) = 5033165 / 16777216
      ∧ f32_round (f64_round (1 / 25)) = 5368709 / 134217728
      ∧ f32_round (f64_round (-1 / 5)) = -13421773 / 67108864 := by
  have d1 : f64_round (3 / 4) = 3 / 4 :=
    round_binary_eval 53 (-1074) (-1) (-53) 6755399441055744 (by norm_num [abs_of_pos])
      (by norm_num [abs_of_pos]) (by decide)
      (round_half_even_of_near _ (by norm_num) (by norm_num)) (by norm_num)
  have d2 : f64_round (1 / 2) = 1 / 2 :=
    round_binary_eval 53 (-1074) (-1) (-53) 4503599627370496 (by norm_num [abs_of_pos])
      (by norm_num [abs_of_pos]) (by decide)
      (round_half_even_of_near _ (by norm_num) (by norm_num)) (by norm_num)
  have d3 : f64_round (9 / 10) = 8106479329266893 / 9007199254740992 :=
    round_binary_eval 53 (-1074) (-1) (-53) 8106479329266893 (by norm_num [abs_of_pos])
      (by norm_num [abs_of_pos]) (by decide)
      (round_half_even_of_near _ (by norm_num) (by norm_num)) (by norm_num)
  have d4 : f64_round (3 / 10) = 5404319552844595 / 18014398509481984 :=
    round_binary_eval 53 (-1074) (-2) (-54) 5404319552844595 (by norm_num [abs_of_pos])
      (by norm_num [abs_of_pos]) (by decide)
      (round_half_even_of_near _ (by norm_num) (by norm_num)) (by norm_num)
  have d5 : f64_round (1 / 25) = 5764607523034235 / 144115188075855872 :=
    round_binary_eval 53 (-1074) (-5) (-57) 5764607523034235 (by norm_num [abs_of_pos])
      (by norm_num [abs_of_pos]) (by decide)
      (round_half_even_of_near _ (by norm_num) (by norm_num)) (by norm_num)
  have d6 : f64_round (-1 / 5) = -3602879701896397 / 18014398509481984 :=
    round_binary_eval 53 (-1074) (-3) (-55) (-7205759403792794)
      (by norm_num [abs_of_neg]) (by norm_num [abs_of_neg]) (by decide)
      (round_half_even_of_near _ (by norm_num) (by norm_num)) (by norm_num)
  rw [d1, d2, d3, d4, d5, d6]
  refine ⟨?_, ?_, ?_, ?_, ?_, ?_⟩
  · exact round_binary_eval 24 (-149) (-1) (-24) 12582912 (by norm_num [abs_of_pos])
      (by norm_num [abs_of_pos]) (by decide)
      (round_half_even_of_near _ (by norm_num) (by norm_num)) (by norm_num)
  · exact round_binary_eval 24 (-149) (-1) (-24) 8388608 (by norm_num [abs_of_pos])
      (by norm_num [abs_of_pos]) (by decide)
      (round_half_even_of_near _ (by norm_num) (by norm_num)) (by norm_num)
  · exact round_binary_eval 24 (-149) (-1) (-24) 15099494 (by norm_num [abs_of_pos])
      (by norm_num [abs_of_pos]) (by decide)
      (round_half_even_of_near _ (by norm_num) (by norm_num)) (by norm_num)
  · exact round_binary_eval 24 (-149) (-2) (-25) 10066330 (by norm_num [abs_of_pos])
      (by norm_num [abs_of_pos]) (by decide)
      (round_half_even_of_near _ (by norm_num) (by norm_num)) (by norm_num)
  · exact round_binary_eval 24 (-149) (-5) (-28) 10737418 (by norm_num [abs_of_pos])
      (by norm_num [abs_of_pos]) (by decide)
      (round_half_even_of_near _ (by norm_num) (by norm_num)) (by norm_num)
  · exact round_binary_eval 24 (-149) (-3) (-26) (-13421773)
      (by norm_num [abs_of_neg]) (by norm_num [abs_of_neg]) (by decide)
      (round_half_even_of_near _ (by norm_num) (by norm_num)) (by norm_num)

theorem value_width_nonpos {width : Int} {value : ℚ} (hw : 0 ≤ width) (hv : value ≤ 0) :
    value_width width value ≤ 0 := by
  have h1 : (0 : ℚ) ≤ f32_round (width : ℚ) :=
    round_binary_nonneg 24 (-149) (by exact_mod_cast hw)
  exact c_trunc_nonpos
    (round_binary_nonpos 24 (-149) (mul_nonpos_of_nonneg_of_nonpos h1 hv))

theorem isdigit_iff (c : Char) : isdigit c = true ↔ 48 ≤ c.toNat ∧ c.toNat ≤ 57 := by
  simp [isdigit]

theorem digitChar_isdigit {k : Nat} (h : k < 10) :
    isdigit (Nat.digitChar k) = true ∧ (Nat.digitChar k).toNat - 48 = k := by
  interval_cases k <;> exact ⟨by decide, by decide⟩

theorem dec_value_append_singleton (ds : List Char) (c : Char) :
    dec_value (ds ++ [c]) = dec_value ds * 10 + (c.toNat - 48) := by
  simp [dec_value, List.foldl_append]

theorem toDigitsCore_spec (fuel : Nat) : ∀ (n : Nat) (acc : List Char), n < fuel →
    ∃ pre, Nat.toDigitsCore 10 fuel n acc = pre ++ acc ∧ pre ≠ []
      ∧ (∀ c ∈ pre, isdigit c = true) ∧ dec_value pre = n := by
  induction fuel with
  | zero => intro n acc h; omega
  | succ f ih =>
    intro n acc h
    have hd := digitChar_isdigit (Nat.mod_lt n (by norm_num : 10 > 0))
    by_cases h0 : n / 10 = 0
    · refine ⟨[Nat.digitChar (n % 10)], ?_, by simp, ?_, ?_⟩
      · simp [Nat.toDigitsCore, h0]
      · simpa using hd.1
      · simp only [dec_value, List.foldl, zero_mul, zero_add, hd.2]
        omega
    · obtain ⟨pre, hp, -, hall, hv⟩ := ih (n / 10) (Nat.digitChar (n % 10) :: acc) (by omega)
      refine ⟨pre ++ [Nat.digitChar (n % 10)], ?_, by simp, ?_, ?_⟩
      · simp [Nat.toDigitsCore, h0, hp]
      · intro c hc
        rcases List.mem_append.1 hc with hc | hc
        · exact hall c hc
        · rw [List.mem_singleton.1 hc]; exact hd.1
      · rw [dec_value_append_singleton, hv, hd.2]
        omega

theorem repr_spec (n : Nat) :
    (Nat.repr n).data ≠ [] ∧ (∀ c ∈ (Nat.repr n).data, isdigit c = true)
      ∧ dec_value (Nat.repr n).data = n := by
  obtain ⟨pre, hp, hne, hall, hv⟩ := toDigitsCore_spec (n + 1) n [] (Nat.lt_succ_self n)
  have : (Nat.repr n).data = pre := by
    simp [Nat.repr, Nat.toDigits, hp, List.asString]
  rw [this]
  exact ⟨hne, hall, hv⟩


theorem isspace_of_isdigit {c : Char} (h : isdigit c = true) : isspace c = false := by
  rw [isdigit_iff] at h
  rw [← Bool.not_eq_true, isspace_iff]
  omega

theorem scan_sign_of_isdigit {c : Char} (cs : List Char) (h : isdigit c = true) :
    scan_sign (c :: cs) = (false, c :: cs) := by
  rw [isdigit_iff] at h
  have n45 : c.toNat ≠ 45 := by omega
  have n43 : c.toNat ≠ 43 := by omega
  simp [scan_sign, n45, n43]

theorem takeWhile_digits (ds rest : List Char) (hall : ∀ c ∈ ds, isdigit c = true)
    (hrest : no_digit_ahead rest) :
    (ds ++ rest).takeWhile isdigit = ds ∧ (ds ++ rest).dropWhile isdigit = rest := by
  induction ds with
  | nil =>
    rcases rest with _ | ⟨c, cs⟩
    · simp
    · have := hrest c cs rfl
      simp [List.takeWhile, List.dropWhile, this]
  | cons d ds ih =>
    have hd : isdigit d = true := hall d (List.mem_cons_self _ _)
    have := ih (fun c hc => hall c (List.mem_cons_of_mem _ hc))
    simp [List.takeWhile, List.dropWhile, hd, this]

theorem strtol_10_digits (ds rest : List Char) (hne : ds ≠ [])
    (hall : ∀ c ∈ ds, isdigit c = true) (hrest : no_digit_ahead rest)
    (hv : dec_value ds ≤ 2 ^ 63 - 1) :
    strtol_10 (ds ++ rest) = (((dec_value ds : Nat) : Int), rest) := by
  obtain ⟨d, ds', rfl⟩ := List.exists_cons_of_ne_nil hne
  have hd : isdigit d = true := hall d (List.mem_cons_self _ _)
  have htd := takeWhile_digits (d :: ds') rest hall hrest
  have hsp : (d :: ds' ++ rest).dropWhile isspace = d :: ds' ++ rest := by
    simp [List.dropWhile, isspace_of_isdigit hd]
  have hsg : scan_sign (d :: ds' ++ rest) = (false, d :: ds' ++ rest) :=
    scan_sign_of_isdigit _ hd
  have hv' : ¬ ((dec_value (d :: ds') : Nat) : Int) > 2 ^ 63 - 1 := by
    have : ((dec_value (d :: ds') : Nat) : Int) ≤ ((2 ^ 63 - 1 : Nat) : Int) := by
      exact_mod_cast hv
    norm_num at this ⊢
    omega
  simp only [strtol_10, hsp, hsg, htd.1, htd.2]
  simp only [List.cons_ne_nil, if_false, Bool.false_eq_true, hv']

theorem long_to_int_of_in_range {z : Int} (h1 : -(2 ^ 31) ≤ z) (h2 : z ≤ 2 ^ 31 - 1) :
    long_to_int z = z := by
  unfold long_to_int
  omega

theorem long_to_int_zero : long_to_int 0 = 0 := by decide

theorem strtol_10_no_digits {s : List Char}
    (h : (scan_sign (s.dropWhile isspace)).2.takeWhile isdigit = []) :
    strtol_10 s = (0, s) := by
  simp [strtol_10, h]

theorem strtol_10_snd_of_digits {s : List Char}
    (h : (scan_sign (s.dropWhile isspace)).2.takeWhile isdigit ≠ []) :
    (strtol_10 s).2 = (scan_sign (s.dropWhile isspace)).2.dropWhile isdigit := by
  simp [strtol_10, h]

theorem display_parse_resolution_ret (r : Option String) :
    (display_parse_resolution r).1 = 0 ∨ (display_parse_resolution r).1 = -1 := by
  unfold display_parse_resolution
  rcases r with _ | s
  · simp
  · simp only
    split
    · simp
    · split_ifs <;> simp

theorem display_parse_resolution_no_width_digits {s : String}
    (h : (scan_sign (s.data.dropWhile isspace)).2.takeWhile isdigit = []) :
    (display_parse_resolution (some s)).1 = -1 := by
  have h0 := strtol_10_no_digits h
  simp only [display_parse_resolution, h0, long_to_int_zero]
  split
  · rfl
  · split_ifs <;> simp_all


theorem display_parse_resolution_not_relaxed {s : String}
    (h : relaxed_resolution_form s = false) : (display_parse_resolution (some s)).1 = -1 := by
  by_cases hd : (scan_sign (s.data.dropWhile isspace)).2.takeWhile isdigit = []
  · exact display_parse_resolution_no_width_digits hd
  · have h2 := strtol_10_snd_of_digits hd
    unfold relaxed_resolution_form at h
    unfold display_parse_resolution
    simp only [h2]
    rcases hr : (scan_sign (s.data.dropWhile isspace)).2.dropWhile isdigit with _ | ⟨sep, b⟩
    · rfl
    · simp only [hr] at h
      by_cases hsep : sep.toNat ≠ 120 ∧ sep.toNat ≠ 88
      · simp [hsep]
      · have hsep' : (sep.toNat == 120 || sep.toNat == 88) = true := by
          simp only [Bool.or_eq_true, beq_iff_eq]
          omega
        have hde : ((scan_sign (s.data.dropWhile isspace)).2.takeWhile isdigit).isEmpty = false := by
          rw [List.isEmpty_eq_false]; exact hd
        simp only [hde, hsep', Bool.not_false, Bool.true_and, Bool.not_eq_false',
          List.isEmpty_iff] at h
        have hb := strtol_10_no_digits h
        simp only [hsep, if_false, hb, long_to_int_zero]
        simp

theorem scan_sign_parts (l : List Char) :
    ∃ sg, is_sign_text sg ∧ l = sg ++ (scan_sign l).2 := by
  rcases l with _ | ⟨c, cs⟩
  · exact ⟨[], Or.inl rfl, rfl⟩
  · by_cases h45 : c.toNat = 45
    · exact ⟨[c], Or.inr ⟨c, rfl, Or.inl h45⟩, by simp [scan_sign, h45]⟩
    · by_cases h43 : c.toNat = 43
      · exact ⟨[c], Or.inr ⟨c, rfl, Or.inr h43⟩, by simp [scan_sign, h45, h43]⟩
      · exact ⟨[], Or.inl rfl, by simp [scan_sign, h45, h43]⟩

theorem dropWhile_isspace_append (ws l : List Char) (hws : ∀ c ∈ ws, isspace c = true)
    (hl : ∀ c cs, l = c :: cs → isspace c = false) :
    (ws ++ l).dropWhile isspace = l := by
  induction ws with
  | nil =>
    rcases l with _ | ⟨c, cs⟩
    · rfl
    · simp [List.dropWhile, hl c cs rfl]
  | cons w ws ih =>
    have hw : isspace w = true := hws w (List.mem_cons_self _ _)
    simp only [List.cons_append, List.dropWhile, hw]
    exact ih (fun c hc => hws c (List.mem_cons_of_mem _ hc))

theorem scan_signed_digits (ws sg ds rest : List Char) (hws : ∀ c ∈ ws, isspace c = true)
    (hsg : is_sign_text sg) (hne : ds ≠ []) (hds : ∀ c ∈ ds, isdigit c = true) :
    (scan_sign ((ws ++ sg ++ ds ++ rest).dropWhile isspace)).2 = ds ++ rest := by
  obtain ⟨d, ds', rfl⟩ := List.exists_cons_of_ne_nil hne
  have hd : isdigit d = true := hds d (List.mem_cons_self _ _)
  rcases hsg with rfl | ⟨c, rfl, hc⟩
  · have := dropWhile_isspace_append ws (d :: ds' ++ rest) hws
      (by intro c cs h; cases h; exact isspace_of_isdigit hd)
    simp only [List.append_nil, List.append_assoc, List.cons_append,
      List.nil_append] at this ⊢
    rw [this]
    exact congrArg Prod.snd (scan_sign_of_isdigit _ hd)
  · have hsp : isspace c = false := by
      rw [← Bool.not_eq_true, isspace_iff]; omega
    have := dropWhile_isspace_append ws (c :: (d :: ds' ++ rest)) hws
      (by intro c' cs h; cases h; exact hsp)
    simp only [List.append_assoc, List.singleton_append, List.cons_append,
      List.nil_append] at this ⊢
    rw [this]
    rcases hc with hc | hc
    · simp [scan_sign, hc]
    · have h45 : c.toNat ≠ 45 := by omega
      simp [scan_sign, hc, h45]

theorem relaxed_resolution_form_iff (s : String) :
    relaxed_resolution_form s = true ↔ relaxed_resolution_text s.data := by
  constructor
  · intro h
    unfold relaxed_resolution_form at h
    simp only at h
    obtain ⟨sg1, hsg1, e1⟩ := scan_sign_parts (s.data.dropWhile isspace)
    generalize (scan_sign (s.data.dropWhile isspace)).2 = a at h e1
    have ea := (List.takeWhile_append_dropWhile isdigit a).symm
    rcases hr : a.dropWhile isdigit with _ | ⟨sep, b⟩
    · simp [hr] at h
    · simp only [hr, Bool.and_eq_true, Bool.not_eq_true', Bool.or_eq_true, beq_iff_eq,
        List.isEmpty_eq_false] at h
      obtain ⟨⟨hd1, hsep⟩, hd2⟩ := h
      obtain ⟨sg2, hsg2, e2⟩ := scan_sign_parts (b.dropWhile isspace)
      generalize (scan_sign (b.dropWhile isspace)).2 = c at hd2 e2
      refine ⟨s.data.takeWhile isspace, sg1, a.takeWhile isdigit, sep,
        b.takeWhile isspace, sg2, c.takeWhile isdigit, c.dropWhile isdigit,
        ?_, ?_, hsg1, hd1, ?_, hsep, ?_, hsg2, hd2, ?_⟩
      · have es := (List.takeWhile_append_dropWhile isspace s.data).symm
        have eb := (List.takeWhile_append_dropWhile isspace b).symm
        have ec := (List.takeWhile_append_dropWhile isdigit c).symm
        rw [hr] at ea
        calc s.data = s.data.takeWhile isspace ++ s.data.dropWhile isspace := es
          _ = s.data.takeWhile isspace ++ (sg1 ++ a) := by rw [← e1]
          _ = s.data.takeWhile isspace ++ (sg1 ++ (a.takeWhile isdigit ++ sep :: b)) := by
              rw [← ea]
          _ = s.data.takeWhile isspace ++ (sg1 ++ (a.takeWhile isdigit
                ++ sep :: (b.takeWhile isspace ++ b.dropWhile isspace))) := by
              rw [← eb]
          _ = s.data.takeWhile isspace ++ (sg1 ++ (a.takeWhile isdigit
                ++ sep :: (b.takeWhile isspace ++ (sg2 ++ c)))) := by
              rw [← e2]
          _ = s.data.takeWhile isspace ++ (sg1 ++ (a.takeWhile isdigit
                ++ sep :: (b.takeWhile isspace ++ (sg2
                  ++ (c.takeWhile isdigit ++ c.dropWhile isdigit))))) := by
              rw [← ec]
          _ = _ := by simp only [List.append_assoc]
      · intro x hx; exact (List.mem_takeWhile_imp hx)
      · intro x hx; exact (List.mem_takeWhile_imp hx)
      · intro x hx; exact (List.mem_takeWhile_imp hx)
      · intro x hx; exact (List.mem_takeWhile_imp hx)
  · rintro ⟨ws1, sg1, ds1, sep, ws2, sg2, ds2, rest, hs, hws1, hsg1, hne1, hds1, hsep, hws2,
      hsg2, hne2, hds2⟩
    have hsepd : isdigit sep = false := by
      rw [← Bool.not_eq_true, isdigit_iff]; omega
    have ha := scan_signed_digits ws1 sg1 ds1 (sep :: (ws2 ++ sg2 ++ ds2 ++ rest)) hws1 hsg1
      hne1 hds1
    have hb := scan_signed_digits ws2 sg2 ds2 rest hws2 hsg2 hne2 hds2
    have ht := takeWhile_digits ds1 (sep :: (ws2 ++ sg2 ++ ds2 ++ rest)) hds1
      (by intro c cs h; cases h; exact hsepd)
    obtain ⟨d, ds', rfl⟩ := List.exists_cons_of_ne_nil hne2
    have hd : isdigit d = true := hds2 d (List.mem_cons_self _ _)
    unfold relaxed_resolution_form
    simp only [hs, ha, ht.1, ht.2, hb]
    have hsep' : (sep.toNat == 120 || sep.toNat == 88) = true := by
      simp only [Bool.or_eq_true, beq_iff_eq]; exact hsep
    have hd1 : (ds1.isEmpty) = false := by
      rw [List.isEmpty_eq_false]; exact hne1
    simp [hsep', hd1, List.takeWhile, hd]

/-! ## Lemmas on the main interface and the button -/

theorem filter_rectangle_rounded_rect (x y w h r : ℚ) :
    (draw_rounded_rect x y w h r).filter is_rectangle = [] := by
  simp [draw_rounded_rect, is_rectangle]

theorem filter_rectangle_panel (x y w h : Int) (theme : Option theme_data)
    (key : Option String) :
    (lcars_draw_panel x y w h theme key).filter is_rectangle = [] := by
  simp [lcars_draw_panel, draw_rounded_rect, is_rectangle, set_source_slot]

theorem filter_rectangle_button (p : String → String → Int × Int) (x y w h r : Int)
    (theme : Option theme_data) (key : Option String) (label : String) :
    (lcars_draw_button p x y w h r theme key label).filter is_rectangle = [] := by
  simp [lcars_draw_button, draw_rounded_rect, is_rectangle, set_source_slot]

theorem filter_rectangle_text (x y : Int) (theme : Option theme_data) (key : Option String)
    (text : String) (size : Int) :
    (lcars_draw_text x y theme key text size).filter is_rectangle = [] := by
  simp [lcars_draw_text, is_rectangle, set_source_slot]

theorem filter_rectangle_status_bar (x y w h : Int) (v : ℚ) (theme : Option theme_data)
    (key : Option String) :
    (lcars_draw_status_bar x y w h v theme key).filter is_rectangle = [] := by
  unfold lcars_draw_status_bar
  split_ifs <;> simp [draw_rounded_rect, is_rectangle, set_source_slot]

theorem value_width_240 :
    value_width 240 (3 / 4) = 180 ∧ value_width 240 (1 / 2) = 120
      ∧ value_width 240 (7549747 / 8388608) = 216
      ∧ value_width 240 (5033165 / 16777216) = 72 :=
  ⟨value_width_examples.1, value_width_examples.2.1, value_width_examples.2.2.1,
    value_width_examples.2.2.2.1⟩

theorem status_bar_240 (x y : Int) (v : ℚ) (k : Int) (theme : Option theme_data)
    (key : Option String) (hk : value_width 240 v = k) (hpos : 0 < k) :
    lcars_draw_status_bar x y 240 20 v theme key
      = [cairo_op.save, set_source_slot theme (some "background")]
        ++ draw_rounded_rect x y 240 20 10
        ++ [cairo_op.fill, set_source_slot theme key]
        ++ draw_rounded_rect x y k 20 10
        ++ [cairo_op.fill, cairo_op.restore] := by
  have ht : Int.tdiv 20 2 = 10 := by decide
  have hp : value_width 240 v > 0 := by rw [hk]; exact hpos
  simp [lcars_draw_status_bar, hk, ht, hpos]

theorem int_add_of_in_range {a b : Int} (h : in_int_range (a + b)) : int_add a b = a + b :=
  long_to_int_of_in_range h.1 h.2

/-! ## Lemmas on the display modes, the rounded rectangles and the bands -/

theorem display_set_mode_loop_eq_zero_iff (ms : List String) (mode : String) :
    display_set_mode_loop ms mode = 0 ↔ mode ∈ ms := by
  induction ms with
  | nil => simp [display_set_mode_loop]
  | cons m ms ih =>
    by_cases h : m = mode
    · simp [display_set_mode_loop, h]
    · have h' : ¬ mode = m := fun e => h e.symm
      simp [display_set_mode_loop, h, h', ih]

theorem display_set_mode_loop_ret (ms : List String) (mode : String) :
    display_set_mode_loop ms mode = 0 ∨ display_set_mode_loop ms mode = -1 := by
  induction ms with
  | nil => simp [display_set_mode_loop]
  | cons m ms ih =>
    by_cases h : m = mode <;> simp [display_set_mode_loop, h, ih]

theorem filter_path_rounded_rect (x y w h r : ℚ) :
    (draw_rounded_rect x y w h r).filter is_path_op = draw_rounded_rect x y w h r := by
  simp [draw_rounded_rect, is_path_op]

theorem filter_path_run_call (p : String → String → Int × Int) (theme : Option theme_data)
    (c : lcars_call) :
    (run_call p theme c).filter is_path_op
      = (rounded_rects_of_call c).flatMap
          (fun r => draw_rounded_rect r.x r.y r.width r.height r.radius) := by
  cases c with
  | set_source k => simp [run_call, rounded_rects_of_call, is_path_op, set_source_slot]
  | rectangle x y w h => simp [run_call, rounded_rects_of_call, is_path_op]
  | fill => simp [run_call, rounded_rects_of_call, is_path_op]
  | panel x y w h k =>
    simp [run_call, rounded_rects_of_call, lcars_draw_panel, List.filter_append,
      filter_path_rounded_rect, is_path_op, set_source_slot]
  | button x y w h r k l =>
    simp [run_call, rounded_rects_of_call, lcars_draw_button, List.filter_append,
      filter_path_rounded_rect, is_path_op, set_source_slot]
  | text x y k t sz =>
    simp [run_call, rounded_rects_of_call, lcars_draw_text, is_path_op, set_source_slot]
  | status_bar x y w h v k =>
    by_cases hv : value_width w v > 0
    · simp [run_call, rounded_rects_of_call, lcars_draw_status_bar, List.filter_append,
        filter_path_rounded_rect, is_path_op, set_source_slot, hv]
    · simp [run_call, rounded_rects_of_call, lcars_draw_status_bar, List.filter_append,
        filter_path_rounded_rect, is_path_op, set_source_slot, hv]

theorem filter_path_flatMap (p : String → String → Int × Int) (theme : Option theme_data)
    (calls : List lcars_call) :
    (calls.flatMap (run_call p theme)).filter is_path_op
      = (calls.flatMap rounded_rects_of_call).flatMap
          (fun r => draw_rounded_rect r.x r.y r.width r.height r.radius) := by
  induction calls with
  | nil => rfl
  | cons c cs ih =>
    simp only [List.flatMap_cons, List.filter_append, List.flatMap_append, ih,
      filter_path_run_call]

theorem main_interface_rounded_rects_eq (width height : Int) :
    main_interface_rounded_rects width height
      = [⟨width - 300, 80, 280, 200, 10⟩,
          ⟨220, 80, width - 540, height - 200, 10⟩,
          ⟨220, height - 100, 300, 40, 10⟩,
          ⟨20, 80, 160, 40, 10⟩, ⟨20, 140, 160, 40, 10⟩, ⟨20, 200, 160, 40, 10⟩,
          ⟨20, 260, 160, 40, 10⟩, ⟨20, 320, 160, 40, 10⟩, ⟨20, 380, 160, 40, 10⟩,
          ⟨20, 440, 160, 40, 10⟩,
          ⟨width - 280, 100, 240, 20, 10⟩, ⟨width - 280, 100, 180, 20, 10⟩,
          ⟨width - 280, 140, 240, 20, 10⟩, ⟨width - 280, 140, 120, 20, 10⟩,
          ⟨width - 280, 180, 240, 20, 10⟩, ⟨width - 280, 180, 216, 20, 10⟩,
          ⟨width - 280, 220, 240, 20, 10⟩, ⟨width - 280, 220, 72, 20, 10⟩] := by
  obtain ⟨h1, h2, h3, h4⟩ := value_width_240
  have ht : Int.tdiv 20 2 = 10 := by decide
  have h2' : value_width 240 2⁻¹ = 120 := by simpa using h2
  simp [main_interface_rounded_rects, lcars_draw_main_interface_body, rounded_rects_of_call,
    h1, h2', h3, h4, ht]

theorem radius_fits_of_int {r : rounded_rect} (hw : 2 * r.radius ≤ r.width)
    (hh : 2 * r.radius ≤ r.height) : radius_fits r := by
  unfold radius_fits
  have hw' : (2 : ℚ) * r.radius ≤ r.width := by exact_mod_cast hw
  have hh' : (2 : ℚ) * r.radius ≤ r.height := by exact_mod_cast hh
  rw [le_div_iff₀ (by norm_num), le_min_iff]
  constructor <;> linarith

theorem main_interface_radius_fits {width height : Int} (hw : 560 ≤ width)
    (hh : 220 ≤ height) : ∀ r ∈ main_interface_rounded_rects width height, radius_fits r := by
  rw [main_interface_rounded_rects_eq]
  intro r hr
  simp only [List.mem_cons, List.mem_singleton, List.not_mem_nil, or_false] at hr
  rcases hr with rfl | rfl | rfl | rfl | rfl | rfl | rfl | rfl | rfl | rfl | rfl | rfl | rfl
    | rfl | rfl | rfl | rfl | rfl <;>
    exact radius_fits_of_int (by simp only; omega) (by simp only; omega)

theorem display_get_modes_bounds {m : String} {width height : Int}
    (hm : m ∈ display_get_modes)
    (hp : display_parse_resolution (some m) = (0, some width, some height)) :
    800 ≤ width ∧ 600 ≤ height := by
  have hall : display_get_modes.all (fun m =>
      match display_parse_resolution (some m) with
      | (0, some w, some h) => decide (800 ≤ w ∧ 600 ≤ h)
      | _ => false) = true := by decide
  have := List.all_eq_true.1 hall m hm
  rw [hp] at this
  simpa using this

theorem tdiv_two_margin (d : Int) : |(d - Int.tdiv d 2) - Int.tdiv d 2| ≤ 1 := by
  have h0 := Int.tdiv_add_tmod d 2
  have h1 := Int.tmod_lt_of_pos d (by norm_num : (0 : Int) < 2)
  have h2 := Int.tmod_lt_of_pos (-d) (by norm_num : (0 : Int) < 2)
  have h3 := Int.tdiv_add_tmod (-d) 2
  rw [Int.neg_tdiv] at h3
  rw [abs_le]
  constructor <;> omega

theorem rect_contains_iff (r : rect) (px py : Int) :
    r.contains px py = true
      ↔ (r.x ≤ px ∧ px < r.x + r.width ∧ r.y ≤ py ∧ py < r.y + r.height) := by
  simp [rect.contains]

/-! ## The claims -/

/-- Claim C1: for every mode string other than the five recognized names
(the empty string included) `theme_create` gives the same seven slots as it
gives for `"starfleet"`, whatever the outcome of the allocation; hence every
`theme_get_color` query answers the same on both themes. -/
theorem theme_create_unrecognized_eq_starfleet (cfg : config_h) (malloc_ok : Bool)
    (mode : String)
    (h1 : mode ≠ "starfleet") (h2 : mode ≠ "section31") (h3 : mode ≠ "borg")
    (h4 : mode ≠ "terran") (h5 : mode ≠ "holodeck") :
    (theme_create cfg malloc_ok mode).map theme_slots
        = (theme_create cfg malloc_ok "starfleet").map theme_slots
      ∧ ∀ key : String,
          theme_get_color (theme_create cfg malloc_ok mode) (some key)
            = theme_get_color (theme_create cfg malloc_ok "starfleet") (some key) := by
  cases malloc_ok <;> simp [theme_create, h1, h2, h3, h4, h5, theme_slots, theme_get_color]

/-- Claim C1 at the empty mode string. -/
theorem theme_create_unrecognized_eq_starfleet_witness :
    (theme_create ⟨"#CC99CC", "#9999CC", "#FF9966", "#000000"⟩ true "").map theme_slots
        = (theme_create ⟨"#CC99CC", "#9999CC", "#FF9966", "#000000"⟩ true "starfleet").map
            theme_slots
      ∧ ∀ key : String,
          theme_get_color (theme_create ⟨"#CC99CC", "#9999CC", "#FF9966", "#000000"⟩ true "")
              (some key)
            = theme_get_color
                (theme_create ⟨"#CC99CC", "#9999CC", "#FF9966", "#000000"⟩ true "starfleet")
                (some key) :=
  theme_create_unrecognized_eq_starfleet _ true "" (by decide) (by decide) (by decide)
    (by decide) (by decide)

/-- Claim C2: when `theme_set_mode (t, m)` returns 0 the theme holds exactly
what a successful `theme_create (m)` holds, so each of the seven slots is the
slot of the new mode and none of the old values is left; for `m = "borg"` the
primary slot then reads `"#00FF00"`. -/
theorem theme_set_mode_replaces_all (cfg : config_h) (malloc_ok : Bool) (t : theme_data)
    (m : String) (t' : Option theme_data)
    (h : theme_set_mode cfg malloc_ok (some t) (some m) = (0, t')) :
    t' = theme_create cfg true m
      ∧ t'.map theme_slots = (theme_create cfg true m).map theme_slots
      ∧ (m = "borg" → theme_get_color t' (some "primary") = some "#00FF00") := by
  cases malloc_ok
  · simp [theme_set_mode, theme_create] at h
  · have hc : ∃ n, theme_create cfg true m = some n := by
      simp only [theme_create, Bool.true_eq_false, if_false]
      repeat' split
      all_goals exact ⟨_, rfl⟩
    obtain ⟨n, hn⟩ := hc
    simp only [theme_set_mode, hn, Prod.mk.injEq, true_and] at h
    subst h
    refine ⟨hn.symm, by rw [hn], ?_⟩
    intro hb
    subst hb
    simp [theme_create] at hn
    subst hn
    simp [theme_get_color]

/-- Claim C2 on a starfleet theme switched to `"borg"`. -/
theorem theme_set_mode_replaces_all_witness :
    (theme_set_mode ⟨"#CC99CC", "#9999CC", "#FF9966", "#000000"⟩ true
        (some ⟨some "starfleet", some "#CC99CC", some "#9999CC", some "#FF9966",
          some "#000000", some "#FFFFFF", some "#FFCC99", some "#CC6666"⟩)
        (some "borg")).1 = 0
      ∧ theme_get_color
          (theme_set_mode ⟨"#CC99CC", "#9999CC", "#FF9966", "#000000"⟩ true
            (some ⟨some "starfleet", some "#CC99CC", some "#9999CC", some "#FF9966",
              some "#000000", some "#FFFFFF", some "#FFCC99", some "#CC6666"⟩)
            (some "borg")).2
          (some "primary") = some "#00FF00" :=
  ⟨by decide,
    (theme_set_mode_replaces_all ⟨"#CC99CC", "#9999CC", "#FF9966", "#000000"⟩ true
      ⟨some "starfleet", some "#CC99CC", some "#9999CC", some "#FF9966",
        some "#000000", some "#FFFFFF", some "#FFCC99", some "#CC6666"⟩
      "borg" _ (by decide)).2.2 rfl⟩

/-- Claim C3: `theme_get_color` always returns a string.  With a theme and a
key present it returns the stored slot when the key is exactly one of the
seven slot names, and `"#000000"` for every other key (`"nonexistent-slot"`
for one); with the theme or the key absent it returns `"#000000"`. -/
theorem theme_get_color_spec (t : theme_data) (k : String) :
    (k = "primary" → theme_get_color (some t) (some k) = t.primary)
      ∧ (k = "secondary" → theme_get_color (some t) (some k) = t.secondary)
      ∧ (k = "accent" → theme_get_color (some t) (some k) = t.accent)
      ∧ (k = "background" → theme_get_color (some t) (some k) = t.background)
      ∧ (k = "text" → theme_get_color (some t) (some k) = t.text)
      ∧ (k = "warning" → theme_get_color (some t) (some k) = t.warning)
      ∧ (k = "danger" → theme_get_color (some t) (some k) = t.danger)
      ∧ (k ∉ slot_names → theme_get_color (some t) (some k) = some "#000000")
      ∧ theme_get_color (some t) (some "nonexistent-slot") = some "#000000"
      ∧ theme_get_color none (some k) = some "#000000"
      ∧ theme_get_color (some t) none = some "#000000"
      ∧ theme_get_color none none = some "#000000" := by
  refine ⟨?_, ?_, ?_, ?_, ?_, ?_, ?_, ?_, ?_, rfl, rfl, rfl⟩
  · rintro rfl; rfl
  · rintro rfl; rfl
  · rintro rfl; rfl
  · rintro rfl; rfl
  · rintro rfl; rfl
  · rintro rfl; rfl
  · rintro rfl; rfl
  · intro h
    simp only [slot_names, List.mem_cons, List.mem_singleton, not_or, List.not_mem_nil,
      or_false] at h
    simp [theme_get_color, h]
  · simp [theme_get_color]

/-- Claim C3 on the borg theme: the key `"warning"` is found, the key
`"Primary"` (wrong case) is not. -/
theorem theme_get_color_spec_witness :
    theme_get_color
        (some ⟨some "borg", some "#00FF00", some "#008800", some "#004400", some "#000000",
          some "#00FF00", some "#FFFF00", some "#FF0000"⟩) (some "warning") = some "#FFFF00"
      ∧ theme_get_color
        (some ⟨some "borg", some "#00FF00", some "#008800", some "#004400", some "#000000",
          some "#00FF00", some "#FFFF00", some "#FF0000"⟩) (some "Primary") = some "#000000" :=
  ⟨(theme_get_color_spec _ "warning").2.2.2.2.2.1 rfl,
   (theme_get_color_spec _ "Primary").2.2.2.2.2.2.2.1 (by decide)⟩

/-- Claim C4: when the slot that a key selects holds six hexadecimal digits
`c1 .. c6`, with or without a leading `#`, the red, green and blue channels
are the values of the digit pairs divided by 255 (as rationals) and alpha
is 1. -/
theorem theme_get_rgba_of_hex_color (theme : Option theme_data) (key : Option String)
    (hash : Bool) (c1 c2 c3 c4 c5 c6 : Char)
    (h1 : isxdigit c1 = true) (h2 : isxdigit c2 = true) (h3 : isxdigit c3 = true)
    (h4 : isxdigit c4 = true) (h5 : isxdigit c5 = true) (h6 : isxdigit c6 = true)
    (hslot : theme_get_color theme key
      = some (String.mk ((if hash then ['#'] else []) ++ [c1, c2, c3, c4, c5, c6]))) :
    theme_get_red theme key = ((16 * xdigit_value c1 + xdigit_value c2 : Nat) : ℚ) / 255
      ∧ theme_get_green theme key = ((16 * xdigit_value c3 + xdigit_value c4 : Nat) : ℚ) / 255
      ∧ theme_get_blue theme key = ((16 * xdigit_value c5 + xdigit_value c6 : Nat) : ℚ) / 255
      ∧ theme_get_alpha theme key = 1 := by
  have hs : skip_hash (String.mk ((if hash then ['#'] else []) ++ [c1, c2, c3, c4, c5, c6])).data
      = [c1, c2, c3, c4, c5, c6] := by
    cases hash
    · simpa using skip_hash_of_isxdigit _ h1
    · simp [skip_hash]
  have h := hex_to_rgb_six _ hs h1 h2 h3 h4 h5 h6
  simp only [theme_get_red, theme_get_green, theme_get_blue, theme_get_alpha, hslot, h,
    and_self]

/-- Claim C4 on the primary slot `"#CC99CC"`: r = 0.8, g = 0.6, b = 0.8,
a = 1. -/
theorem theme_get_rgba_of_hex_color_witness :
    theme_get_red (theme_create ⟨"#CC99CC", "#9999CC", "#FF9966", "#000000"⟩ true "starfleet")
        (some "primary") = 4 / 5
      ∧ theme_get_green
        (theme_create ⟨"#CC99CC", "#9999CC", "#FF9966", "#000000"⟩ true "starfleet")
        (some "primary") = 3 / 5
      ∧ theme_get_blue
        (theme_create ⟨"#CC99CC", "#9999CC", "#FF9966", "#000000"⟩ true "starfleet")
        (some "primary") = 4 / 5
      ∧ theme_get_alpha
        (theme_create ⟨"#CC99CC", "#9999CC", "#FF9966", "#000000"⟩ true "starfleet")
        (some "primary") = 1 := by
  have h := theme_get_rgba_of_hex_color
    (theme_create ⟨"#CC99CC", "#9999CC", "#FF9966", "#000000"⟩ true "starfleet")
    (some "primary") true 'C' 'C' '9' '9' 'C' 'C' (by decide) (by decide) (by decide)
    (by decide) (by decide) (by decide) (by decide)
  have e12 : xdigit_value 'C' = 12 := by decide
  have e9 : xdigit_value '9' = 9 := by decide
  rw [e12, e9] at h
  norm_num at h
  exact h

/-- Claim C5 fails as stated: the primary slot `"#FFF"` is malformed (three
digits), yet `sscanf` converts it to `0xFFF`, and the blue channel is 1 and
the green channel 15/255, not 0. -/
theorem malformed_hex_decodes_nonzero :
    well_formed_hex "#FFF" = false
      ∧ theme_get_color (theme_create ⟨"#FFF", "#9999CC", "#FF9966", "#000000"⟩ true "starfleet")
          (some "primary") = some "#FFF"
      ∧ theme_get_blue (theme_create ⟨"#FFF", "#9999CC", "#FF9966", "#000000"⟩ true "starfleet")
          (some "primary") = 1
      ∧ theme_get_green (theme_create ⟨"#FFF", "#9999CC", "#FF9966", "#000000"⟩ true "starfleet")
          (some "primary") = 1 / 17 := by
  have hc : theme_get_color
      (theme_create ⟨"#FFF", "#9999CC", "#FF9966", "#000000"⟩ true "starfleet")
      (some "primary") = some "#FFF" := by decide
  have hp : sscanf_x (skip_hash "#FFF".data) = some 4095 := by decide
  refine ⟨by decide, hc, ?_, ?_⟩
  · simp only [theme_get_blue, hc, hex_to_rgb, hp, land_255]
    norm_num
  · simp only [theme_get_green, hc, hex_to_rgb, hp, land_255, Nat.shiftRight_eq_div_pow]
    norm_num

/-- Claim C5 as amended: the fallback is taken exactly by the strings in
which, after the optional `#`, white space and an optional sign, no
hexadecimal digit follows.  For those red, green and blue are 0 and alpha
is 1; every other string, malformed or not, is decoded from the digits that
`sscanf` reads. -/
theorem fallback_iff_no_hex_number (theme : Option theme_data) (key : Option String)
    (s : String) (hslot : theme_get_color theme key = some s) :
    (starts_hex_number s = false →
        theme_get_red theme key = 0 ∧ theme_get_green theme key = 0
          ∧ theme_get_blue theme key = 0 ∧ theme_get_alpha theme key = 1)
      ∧ (starts_hex_number s = true → hex_to_rgb (some s) ≠ none) := by
  constructor
  · intro h
    have hn := (hex_to_rgb_eq_none_iff s).2 h
    simp [theme_get_red, theme_get_green, theme_get_blue, theme_get_alpha, hslot, hn]
  · intro h hn
    rw [hex_to_rgb_eq_none_iff, h] at hn
    exact absurd hn (by decide)

/-- Claim C5 as amended, on the primary slot `"#GGGGGG"`. -/
theorem fallback_iff_no_hex_number_witness :
    theme_get_red (theme_create ⟨"#GGGGGG", "#9999CC", "#FF9966", "#000000"⟩ true "starfleet")
        (some "primary") = 0
      ∧ theme_get_green
        (theme_create ⟨"#GGGGGG", "#9999CC", "#FF9966", "#000000"⟩ true "starfleet")
        (some "primary") = 0
      ∧ theme_get_blue
        (theme_create ⟨"#GGGGGG", "#9999CC", "#FF9966", "#000000"⟩ true "starfleet")
        (some "primary") = 0
      ∧ theme_get_alpha
        (theme_create ⟨"#GGGGGG", "#9999CC", "#FF9966", "#000000"⟩ true "starfleet")
        (some "primary") = 1 :=
  (fallback_iff_no_hex_number
    (theme_create ⟨"#GGGGGG", "#9999CC", "#FF9966", "#000000"⟩ true "starfleet")
    (some "primary") "#GGGGGG" (by decide)).1 (by decide)

/-- Claim C6: for every theme and every key, present or absent, recognized
or not, and whatever strings the slots hold, the red, green and blue channels
lie in the closed interval from 0 to 1 and alpha is exactly 1. -/
theorem theme_channels_in_unit_interval (theme : Option theme_data) (key : Option String) :
    (0 ≤ theme_get_red theme key ∧ theme_get_red theme key ≤ 1)
      ∧ (0 ≤ theme_get_green theme key ∧ theme_get_green theme key ≤ 1)
      ∧ (0 ≤ theme_get_blue theme key ∧ theme_get_blue theme key ≤ 1)
      ∧ theme_get_alpha theme key = 1 := by
  unfold theme_get_red theme_get_green theme_get_blue theme_get_alpha
  rcases h : hex_to_rgb (theme_get_color theme key) with _ | c
  · simp
  · exact hex_to_rgb_bounds h

/-- Claim C7: when the four palette constants of `config.h` are `#` followed
by six hexadecimal digits, then for each of the five recognized modes a
successful `theme_create` fills all seven slots with a non-empty string that
is `#` followed by six hexadecimal digits, and `hex_to_rgb` succeeds on each
of them, so that for none of the seven keys the getters take the fallback. -/
theorem theme_create_slots_are_hex_colors (cfg : config_h) (mode : String)
    (hp : hash_hex_color cfg.LCARS_COLOR_PRIMARY = true)
    (hs : hash_hex_color cfg.LCARS_COLOR_SECONDARY = true)
    (ha : hash_hex_color cfg.LCARS_COLOR_ACCENT = true)
    (hb : hash_hex_color cfg.LCARS_COLOR_BACKGROUND = true)
    (hm : mode ∈ ["starfleet", "section31", "borg", "terran", "holodeck"]) :
    ∃ t, theme_create cfg true mode = some t
      ∧ (theme_slots t).length = 7
      ∧ (∀ slot ∈ theme_slots t, ∃ s, slot = some s
          ∧ s ≠ "" ∧ hash_hex_color s = true ∧ hex_to_rgb (some s) ≠ none)
      ∧ ∀ k ∈ slot_names, hex_to_rgb (theme_get_color (some t) (some k)) ≠ none := by
  have key : ∀ s : String, hash_hex_color s = true →
      ∃ s', some s = some s' ∧ s' ≠ "" ∧ hash_hex_color s' = true
        ∧ hex_to_rgb (some s') ≠ none :=
    fun s h => ⟨s, rfl, (hex_to_rgb_of_hash_hex_color h).2.2, h,
      (hex_to_rgb_of_hash_hex_color h).1⟩
  simp only [List.mem_cons, List.mem_singleton, List.not_mem_nil, or_false] at hm
  rcases hm with rfl | rfl | rfl | rfl | rfl
  all_goals
    refine ⟨_, by simp [theme_create]; rfl, rfl, ?_, ?_⟩
    · simp only [theme_slots, List.mem_cons, List.mem_singleton, List.not_mem_nil, or_false,
        forall_eq_or_imp, forall_eq]
      refine ⟨?_, ?_, ?_, ?_, ?_, ?_, ?_⟩ <;>
        first
          | exact key _ hp
          | exact key _ hs
          | exact key _ ha
          | exact key _ hb
          | exact key _ (by decide)
    · simp only [slot_names, List.mem_cons, List.mem_singleton, List.not_mem_nil, or_false,
        forall_eq_or_imp, forall_eq]
      refine ⟨?_, ?_, ?_, ?_, ?_, ?_, ?_⟩ <;>
        first
          | exact (hex_to_rgb_of_hash_hex_color hp).1
          | exact (hex_to_rgb_of_hash_hex_color hs).1
          | exact (hex_to_rgb_of_hash_hex_color ha).1
          | exact (hex_to_rgb_of_hash_hex_color hb).1
          | exact (hex_to_rgb_of_hash_hex_color (by decide)).1

/-- Claim C7 for the mode `"holodeck"` and a palette whose primary constant
is `"#CC99CC"`. -/
theorem theme_create_slots_are_hex_colors_witness :
    ∃ t, theme_create ⟨"#CC99CC", "#9999CC", "#FF9966", "#000000"⟩ true "holodeck" = some t
      ∧ (theme_slots t).length = 7
      ∧ (∀ slot ∈ theme_slots t, ∃ s, slot = some s
          ∧ s ≠ "" ∧ hash_hex_color s = true ∧ hex_to_rgb (some s) ≠ none)
      ∧ ∀ k ∈ slot_names, hex_to_rgb (theme_get_color (some t) (some k)) ≠ none :=
  theme_create_slots_are_hex_colors ⟨"#CC99CC", "#9999CC", "#FF9966", "#000000"⟩ "holodeck"
    (by decide) (by decide) (by decide) (by decide) (by decide)

/-- Claim C9: for a bar width that is not negative and a value of at most 0
`lcars_draw_status_bar` draws the track in the background slot and no filled
rectangle; in general the filled rectangle is drawn exactly when the
truncated product of width and value, the product being the one that the
code forms in `float`, is at least 1, and it then has that width. -/
theorem status_bar_no_fill_unless_positive (x y width height : Int) (value : ℚ)
    (theme : Option theme_data) (color_key : Option String) :
    (0 ≤ width → value ≤ 0 →
        lcars_draw_status_bar x y width height value theme color_key
          = [cairo_op.save, set_source_slot theme (some "background")]
            ++ draw_rounded_rect x y width height (Int.tdiv height 2)
            ++ [cairo_op.fill, set_source_slot theme color_key, cairo_op.restore])
      ∧ (c_trunc (f32_round (f32_round (width : ℚ) * value)) < 1 →
        lcars_draw_status_bar x y width height value theme color_key
          = [cairo_op.save, set_source_slot theme (some "background")]
            ++ draw_rounded_rect x y width height (Int.tdiv height 2)
            ++ [cairo_op.fill, set_source_slot theme color_key, cairo_op.restore])
      ∧ (1 ≤ c_trunc (f32_round (f32_round (width : ℚ) * value)) →
        lcars_draw_status_bar x y width height value theme color_key
          = [cairo_op.save, set_source_slot theme (some "background")]
            ++ draw_rounded_rect x y width height (Int.tdiv height 2)
            ++ [cairo_op.fill, set_source_slot theme color_key]
            ++ draw_rounded_rect x y (c_trunc (f32_round (f32_round (width : ℚ) * value)))
                height (Int.tdiv height 2)
            ++ [cairo_op.fill, cairo_op.restore]) := by
  have hlt : c_trunc (f32_round (f32_round (width : ℚ) * value)) < 1 →
      lcars_draw_status_bar x y width height value theme color_key
        = [cairo_op.save, set_source_slot theme (some "background")]
          ++ draw_rounded_rect x y width height (Int.tdiv height 2)
          ++ [cairo_op.fill, set_source_slot theme color_key, cairo_op.restore] := by
    intro h
    have h0 : ¬ value_width width value > 0 := by
      unfold value_width; omega
    simp [lcars_draw_status_bar, h0]
  refine ⟨?_, hlt, ?_⟩
  · intro hw hv
    have := value_width_nonpos hw hv
    unfold value_width at this
    exact hlt (by omega)
  · intro h
    have h0 : 0 < c_trunc (f32_round (f32_round (width : ℚ) * value)) := by omega
    simp [lcars_draw_status_bar, value_width, h0]

/-- Claim C9 at width 240 and the value -0.2 as a `float`: the track only. -/
theorem status_bar_no_fill_unless_positive_witness :
    lcars_draw_status_bar 1640 100 240 20 (-13421773 / 67108864) none (some "accent")
        = [cairo_op.save, set_source_slot none (some "background")]
          ++ draw_rounded_rect 1640 100 240 20 (Int.tdiv 20 2)
          ++ [cairo_op.fill, set_source_slot none (some "accent"), cairo_op.restore] :=
  (status_bar_no_fill_unless_positive 1640 100 240 20 (-13421773 / 67108864) none
    (some "accent")).1 (by decide) (by norm_num)

/-- Claim C10: `lcars_status_bar_set_value` stores `clamp (v, 0, 1)`: 0 for a
negative `v`, 1 for `v` above 1, `v` itself otherwise.  The stored value lies
between 0 and 1, setting it again changes nothing, and the six other fields
keep their values. -/
theorem status_bar_set_value_clamps (s : lcars_status_bar_t) (v : ℚ) :
    ∃ s', lcars_status_bar_set_value (some s) v = some s'
      ∧ s'.value = clamp01 v
      ∧ (v < 0 → s'.value = 0)
      ∧ (1 < v → s'.value = 1)
      ∧ (0 ≤ v → v ≤ 1 → s'.value = v)
      ∧ (0 ≤ s'.value ∧ s'.value ≤ 1)
      ∧ lcars_status_bar_set_value (some s') v = some s'
      ∧ lcars_status_bar_set_value (some s') s'.value = some s'
      ∧ s'.x = s.x ∧ s'.y = s.y ∧ s'.width = s.width ∧ s'.height = s.height
      ∧ s'.color_key = s.color_key ∧ s'.label = s.label := by
  refine ⟨_, rfl, ?_⟩
  simp only [clamp01, lcars_status_bar_set_value]
  rcases lt_or_le v 0 with h0 | h0
  · have h1 : ¬ v > 1 := by intro h; linarith
    have hmin : min v 1 = v := min_eq_left (by linarith)
    simp [h0, hmin, le_of_lt h0]
    linarith
  · rcases lt_or_le 1 v with h1 | h1
    · have h0' : ¬ v < 0 := not_lt.2 h0
      have hmin : min v 1 = 1 := min_eq_right (le_of_lt h1)
      simp [h0', h1, hmin]
    · have h0' : ¬ v < 0 := not_lt.2 h0
      have h1' : ¬ v > 1 := not_lt.2 h1
      have hmin : min v 1 = v := min_eq_left h1
      simp [h0', h1', hmin, h0, h1]

/-- Claim C10 on a bar at 0.75 that is set to 1.5: the stored value is 1. -/
theorem status_bar_set_value_clamps_witness :
    ∃ s', lcars_status_bar_set_value (some ⟨1640, 100, 240, 20, 3 / 4, some "accent", none⟩)
          (3 / 2) = some s'
      ∧ s'.value = 1 := by
  obtain ⟨s', h, -, -, h1, -⟩ :=
    status_bar_set_value_clamps ⟨1640, 100, 240, 20, 3 / 4, some "accent", none⟩ (3 / 2)
  exact ⟨s', h, h1 (by norm_num)⟩

/-- Claim C11: for all `w` and `h` from 1 to `2 ^ 31 - 1` and either
separator, `display_parse_resolution` applied to the decimal text of `w`, the
separator and the decimal text of `h` returns 0 and stores `w` and `h`. -/
theorem display_parse_resolution_decimal (w h : Nat) (sep : Char)
    (hw1 : 1 ≤ w) (hw2 : w ≤ 2 ^ 31 - 1) (hh1 : 1 ≤ h) (hh2 : h ≤ 2 ^ 31 - 1)
    (hsep : sep = 'x' ∨ sep = 'X') :
    display_parse_resolution (some (Nat.repr w ++ String.singleton sep ++ Nat.repr h))
      = (0, some (w : Int), some (h : Int)) := by
  obtain ⟨wne, wall, wv⟩ := repr_spec w
  obtain ⟨hne, hall, hv⟩ := repr_spec h
  have hsepd : isdigit sep = false := by
    rcases hsep with rfl | rfl <;> decide
  have hdata : (Nat.repr w ++ String.singleton sep ++ Nat.repr h).data
      = (Nat.repr w).data ++ (sep :: ((Nat.repr h).data ++ [])) := by
    simp [String.singleton]
  have h1 : strtol_10 ((Nat.repr w).data ++ (sep :: ((Nat.repr h).data ++ [])))
      = ((w : Int), sep :: ((Nat.repr h).data ++ [])) := by
    have := strtol_10_digits (Nat.repr w).data (sep :: ((Nat.repr h).data ++ [])) wne wall
      (by intro c cs hc; cases hc; exact hsepd) (by rw [wv]; omega)
    rw [this, wv]
  have h2 : strtol_10 ((Nat.repr h).data ++ []) = ((h : Int), []) := by
    have := strtol_10_digits (Nat.repr h).data [] hne hall
      (by intro c cs hc; cases hc) (by rw [hv]; omega)
    rw [this, hv]
  have hsep' : ¬ (sep.toNat ≠ 120 ∧ sep.toNat ≠ 88) := by
    rcases hsep with rfl | rfl <;> decide
  have lw : long_to_int (w : Int) = w := long_to_int_of_in_range (by omega) (by omega)
  have lh : long_to_int (h : Int) = h := long_to_int_of_in_range (by omega) (by omega)
  have pw : ¬ ((w : Int) ≤ 0 ∨ (h : Int) ≤ 0) := by omega
  simp only [display_parse_resolution, hdata, h1, h2, hsep', if_false, lw, lh, pw]

/-- Claim C11 on `"1920x1080"`: width 1920, height 1080. -/
theorem display_parse_resolution_decimal_witness :
    display_parse_resolution (some "1920x1080") = (0, some 1920, some 1080) :=
  display_parse_resolution_decimal 1920 1080 'x' (by decide) (by decide) (by decide)
    (by decide) (Or.inl rfl)

/-- Claim C12 fails as stated: `"1920x1080abc"` (extra characters after the
height) and `" 1920x +1080"` (white space and a sign before the numbers) are
not of the strict format, yet `display_parse_resolution` returns 0 on both
with width 1920 and height 1080. -/
theorem parse_resolution_accepts_trailing_text :
    exact_resolution_form "1920x1080abc" = false
      ∧ display_parse_resolution (some "1920x1080abc") = (0, some 1920, some 1080)
      ∧ exact_resolution_form " 1920x +1080" = false
      ∧ display_parse_resolution (some " 1920x +1080") = (0, some 1920, some 1080) := by
  decide

/-- Claim C12 as amended: `display_parse_resolution` returns 0 or -1, and it
returns -1 for every string that is not of the relaxed format (white space and
a sign allowed before each number, anything allowed after the digits of the
height), for every string whose stored width or height is not positive, and
for a `NULL` string. -/
theorem display_parse_resolution_rejects (s : String) :
    ((display_parse_resolution (some s)).1 = 0 ∨ (display_parse_resolution (some s)).1 = -1)
      ∧ (¬ relaxed_resolution_text s.data → (display_parse_resolution (some s)).1 = -1)
      ∧ (∀ w, (display_parse_resolution (some s)).2.1 = some w → w ≤ 0 →
          (display_parse_resolution (some s)).1 = -1)
      ∧ (∀ h, (display_parse_resolution (some s)).2.2 = some h → h ≤ 0 →
          (display_parse_resolution (some s)).1 = -1)
      ∧ (display_parse_resolution none).1 = -1 := by
  refine ⟨display_parse_resolution_ret _, ?_, ?_, ?_, rfl⟩
  · intro hn
    apply display_parse_resolution_not_relaxed
    rw [← Bool.not_eq_true, relaxed_resolution_form_iff]
    exact hn
  · intro w hw hle
    unfold display_parse_resolution at hw ⊢
    simp only at hw ⊢
    generalize (strtol_10 s.data).2 = r at hw ⊢
    rcases r with _ | ⟨c, rest⟩
    · rfl
    · simp only at hw ⊢
      by_cases hsep : c.toNat ≠ 120 ∧ c.toNat ≠ 88
      · simp [hsep]
      · rw [if_neg hsep] at hw ⊢
        by_cases hpos : long_to_int (strtol_10 s.data).1 ≤ 0 ∨ long_to_int (strtol_10 rest).1 ≤ 0
        · simp [hpos]
        · simp only [hpos, if_false, Option.some.injEq] at hw
          exact absurd (Or.inl (hw ▸ hle)) hpos
  · intro h hh hle
    unfold display_parse_resolution at hh ⊢
    simp only at hh ⊢
    generalize (strtol_10 s.data).2 = r at hh ⊢
    rcases r with _ | ⟨c, rest⟩
    · rfl
    · simp only at hh ⊢
      by_cases hsep : c.toNat ≠ 120 ∧ c.toNat ≠ 88
      · simp [hsep]
      · rw [if_neg hsep] at hh ⊢
        by_cases hpos : long_to_int (strtol_10 s.data).1 ≤ 0 ∨ long_to_int (strtol_10 rest).1 ≤ 0
        · simp [hpos]
        · simp only [hpos, if_false, Option.some.injEq] at hh
          exact absurd (Or.inr (hh ▸ hle)) hpos

/-- Claim C12 as amended, on `"1920y1080"` and `"abcx600"` (not of the relaxed
format), on `"0x600"` (width 0) and on `"1920x-5"` (height -5). -/
theorem display_parse_resolution_rejects_witness :
    (display_parse_resolution (some "1920y1080")).1 = -1
      ∧ (display_parse_resolution (some "abcx600")).1 = -1
      ∧ (display_parse_resolution (some "0x600")).1 = -1
      ∧ (display_parse_resolution (some "1920x-5")).1 = -1 :=
  ⟨(display_parse_resolution_rejects "1920y1080").2.1
      (fun h => absurd ((relaxed_resolution_form_iff "1920y1080").2 h) (by decide)),
    (display_parse_resolution_rejects "abcx600").2.1
      (fun h => absurd ((relaxed_resolution_form_iff "abcx600").2 h) (by decide)),
    (display_parse_resolution_rejects "0x600").2.2.1 0 (by decide) (by decide),
    (display_parse_resolution_rejects "1920x-5").2.2.2.1 (-5) (by decide) (by decide)⟩

/-- Claim C13: whenever `display_parse_resolution` returns 0 it has stored a
width and a height that are both positive; every configuration that
`display_config_create` returns has a positive width and height, those of its
resolution string; and when the resolution string does not parse,
`display_config_create` returns no configuration. -/
theorem display_parse_resolution_positive (r : Option String) (malloc_ok : Bool)
    (resolution : String) (refresh_rate : Int) :
    ((display_parse_resolution r).1 = 0 →
        ∃ w h, display_parse_resolution r = (0, some w, some h) ∧ 0 < w ∧ 0 < h)
      ∧ (∀ c, display_config_create malloc_ok resolution refresh_rate = some c →
          0 < c.width ∧ 0 < c.height
            ∧ display_parse_resolution (some resolution) = (0, some c.width, some c.height))
      ∧ ((display_parse_resolution (some resolution)).1 ≠ 0 →
          display_config_create malloc_ok resolution refresh_rate = none) := by
  have key : ∀ r : Option String, (display_parse_resolution r).1 = 0 →
      ∃ w h, display_parse_resolution r = (0, some w, some h) ∧ 0 < w ∧ 0 < h := by
    intro r h0
    unfold display_parse_resolution at h0 ⊢
    rcases r with _ | s
    · simp at h0
    · simp only at h0 ⊢
      generalize (strtol_10 s.data).2 = t at h0 ⊢
      rcases t with _ | ⟨c, rest⟩
      · simp at h0
      · simp only at h0 ⊢
        by_cases hsep : c.toNat ≠ 120 ∧ c.toNat ≠ 88
        · rw [if_pos hsep] at h0; simp at h0
        · rw [if_neg hsep] at h0 ⊢
          by_cases hpos : long_to_int (strtol_10 s.data).1 ≤ 0
              ∨ long_to_int (strtol_10 rest).1 ≤ 0
          · rw [if_pos hpos] at h0; simp at h0
          · rw [if_neg hpos]
            exact ⟨_, _, rfl, by omega, by omega⟩
  refine ⟨key r, ?_, ?_⟩
  · intro c hc
    unfold display_config_create at hc
    cases malloc_ok
    · simp at hc
    · simp only [Bool.true_eq_false, if_false] at hc
      split at hc
      · rename_i w h heq
        obtain ⟨w', h', he, hw, hh⟩ := key (some resolution) (by rw [heq])
        rw [heq] at he
        simp only [Prod.mk.injEq, Option.some.injEq, true_and] at he
        simp only [Option.some.injEq] at hc
        subst hc
        simp only
        exact ⟨by omega, by omega, heq⟩
      · simp at hc
  · intro hne
    unfold display_config_create
    cases malloc_ok
    · simp
    · simp only [Bool.true_eq_false, if_false]
      split
      · rename_i w h heq
        rw [heq] at hne
        simp at hne
      · rfl

/-- Claim C13 on `"800x600"`, which parses, and on `"1920y1080"`, for which no
configuration is returned. -/
theorem display_parse_resolution_positive_witness :
    (∃ w h, display_parse_resolution (some "800x600") = (0, some w, some h) ∧ 0 < w ∧ 0 < h)
      ∧ display_config_create true "1920y1080" 60 = none :=
  ⟨(display_parse_resolution_positive (some "800x600") true "1920y1080" 60).1 (by decide),
    (display_parse_resolution_positive (some "800x600") true "1920y1080" 60).2.2 (by decide)⟩

/-- Claim C14: for every surface width and height the first seven cairo calls
of `lcars_draw_main_interface` select the primary slot and fill the top bar
`(0, 0, w, 60)`, the left sidebar `(0, 60, 200, h - 60)` and the bottom bar
`(200, h - 60, w - 200, 60)`, and these are the only three rectangles of the
whole drawing. -/
theorem main_interface_bands (p : String → String → Int × Int) (width height : Int)
    (theme : Option theme_data) :
    (lcars_draw_main_interface p width height theme).take 7
        = [set_source_slot theme (some "primary"),
            cairo_op.rectangle 0 0 width 60, cairo_op.fill,
            cairo_op.rectangle 0 60 200 ((height - 60 : Int) : ℚ), cairo_op.fill,
            cairo_op.rectangle 200 ((height - 60 : Int) : ℚ) ((width - 200 : Int) : ℚ) 60,
            cairo_op.fill]
      ∧ (lcars_draw_main_interface p width height theme).filter is_rectangle
        = [cairo_op.rectangle 0 0 width 60,
            cairo_op.rectangle 0 60 200 ((height - 60 : Int) : ℚ),
            cairo_op.rectangle 200 ((height - 60 : Int) : ℚ) ((width - 200 : Int) : ℚ) 60] := by
  constructor
  · simp [lcars_draw_main_interface, lcars_draw_main_interface_body, run_call]
  · simp only [lcars_draw_main_interface, lcars_draw_main_interface_body, List.flatMap_cons,
      List.flatMap_nil, run_call, List.filter_append, filter_rectangle_panel,
      filter_rectangle_button, filter_rectangle_text, filter_rectangle_status_bar]
    simp [is_rectangle, set_source_slot]

/-- Claim C14 at 1920 x 1080: `(0, 0, 1920, 60)`, `(0, 60, 200, 1020)` and
`(200, 1020, 1720, 60)`. -/
theorem main_interface_bands_witness :
    (lcars_draw_main_interface (fun _ _ => (0, 0)) 1920 1080 none).filter is_rectangle
        = [cairo_op.rectangle 0 0 1920 60, cairo_op.rectangle 0 60 200 1020,
            cairo_op.rectangle 200 1020 1720 60] := by
  have h := (main_interface_bands (fun _ _ => (0, 0)) 1920 1080 none).2
  norm_num at h
  exact h

/-- Claim C15 fails as stated: of the seven buttons of the main interface
five use the accent slot, not six (one uses warning and one danger). -/
theorem main_interface_accent_buttons_not_six :
    (buttons_of (lcars_draw_main_interface_body 1920 1080)).length = 7
      ∧ (with_slot "accent" (buttons_of (lcars_draw_main_interface_body 1920 1080))).length = 5
      ∧ (with_slot "accent" (buttons_of (lcars_draw_main_interface_body 1920 1080))).length ≠ 6
      ∧ (with_slot "warning" (buttons_of (lcars_draw_main_interface_body 1920 1080))).length = 1
      ∧ (with_slot "danger" (buttons_of (lcars_draw_main_interface_body 1920 1080))).length = 1 := by
  simp [buttons_of, with_slot, lcars_draw_main_interface_body, call_kind, call_slot]

/-- Claim C15 as amended: for every surface size `lcars_draw_main_interface`
draws exactly seven buttons with fixed labels, at x = 20 and y = 80, 140, 200,
260, 320, 380, 440, each 160 by 40 with radius 10; five use the accent slot,
one the warning slot and one the danger slot. -/
theorem main_interface_buttons (width height : Int) :
    buttons_of (lcars_draw_main_interface_body width height)
        = [lcars_call.button 20 80 160 40 10 "accent" "LCARS MAIN",
            lcars_call.button 20 140 160 40 10 "accent" "SYSTEMS",
            lcars_call.button 20 200 160 40 10 "accent" "SENSORS",
            lcars_call.button 20 260 160 40 10 "accent" "TACTICAL",
            lcars_call.button 20 320 160 40 10 "accent" "OPERATIONS",
            lcars_call.button 20 380 160 40 10 "warning" "SECURITY",
            lcars_call.button 20 440 160 40 10 "danger" "RED ALERT"]
      ∧ (buttons_of (lcars_draw_main_interface_body width height)).length = 7
      ∧ (with_slot "accent" (buttons_of (lcars_draw_main_interface_body width height))).length = 5
      ∧ (with_slot "warning" (buttons_of (lcars_draw_main_interface_body width height))).length
          = 1
      ∧ (with_slot "danger" (buttons_of (lcars_draw_main_interface_body width height))).length
          = 1 := by
  simp [buttons_of, with_slot, lcars_draw_main_interface_body, call_kind, call_slot]

/-- Claim C16: for every measuring function, surface size and theme the body
of `lcars_draw_main_interface` issues, in this order, 3 bands, 3 panels (slots
secondary, accent, secondary), 7 buttons, 2 text labels (slot text) and 4
status bars, 19 primitives in all; the cairo calls of the function are those
of these primitives, one after the other, after the selection of the primary
slot and with the selection of the secondary slot before the panels. -/
theorem main_interface_sequence (p : String → String → Int × Int) (width height : Int)
    (theme : Option theme_data) :
    (lcars_draw_main_interface_body width height).filterMap call_kind
        = List.replicate 3 primitive_kind.band ++ List.replicate 3 primitive_kind.panel
          ++ List.replicate 7 primitive_kind.button ++ List.replicate 2 primitive_kind.text
          ++ List.replicate 4 primitive_kind.status_bar
      ∧ ((lcars_draw_main_interface_body width height).filterMap call_kind).length = 19
      ∧ ((lcars_draw_main_interface_body width height).filter
            (fun c => call_kind c == some primitive_kind.panel)).map call_slot
          = [some "secondary", some "accent", some "secondary"]
      ∧ ((lcars_draw_main_interface_body width height).filter
            (fun c => call_kind c == some primitive_kind.text)).map call_slot
          = [some "text", some "text"]
      ∧ lcars_draw_main_interface p width height theme
        = [set_source_slot theme (some "primary"),
            cairo_op.rectangle 0 0 width 60, cairo_op.fill,
            cairo_op.rectangle 0 60 200 ((height - 60 : Int) : ℚ), cairo_op.fill,
            cairo_op.rectangle 200 ((height - 60 : Int) : ℚ) ((width - 200 : Int) : ℚ) 60,
            cairo_op.fill,
            set_source_slot theme (some "secondary")]
          ++ lcars_draw_panel (width - 300) 80 280 200 theme (some "secondary")
          ++ lcars_draw_panel 220 80 (width - 540) (height - 200) theme (some "accent")
          ++ lcars_draw_panel 220 (height - 100) 300 40 theme (some "secondary")
          ++ lcars_draw_button p 20 80 160 40 10 theme (some "accent") "LCARS MAIN"
          ++ lcars_draw_button p 20 140 160 40 10 theme (some "accent") "SYSTEMS"
          ++ lcars_draw_button p 20 200 160 40 10 theme (some "accent") "SENSORS"
          ++ lcars_draw_button p 20 260 160 40 10 theme (some "accent") "TACTICAL"
          ++ lcars_draw_button p 20 320 160 40 10 theme (some "accent") "OPERATIONS"
          ++ lcars_draw_button p 20 380 160 40 10 theme (some "warning") "SECURITY"
          ++ lcars_draw_button p 20 440 160 40 10 theme (some "danger") "RED ALERT"
          ++ lcars_draw_text 20 40 theme (some "text") "STARFLEET OS" 18
          ++ lcars_draw_text (width - 200) 40 theme (some "text") "LCARS INTERFACE" 16
          ++ lcars_draw_status_bar (width - 280) 100 240 20 (3 / 4) theme (some "accent")
          ++ lcars_draw_status_bar (width - 280) 140 240 20 (1 / 2) theme (some "accent")
          ++ lcars_draw_status_bar (width - 280) 180 240 20 (7549747 / 8388608) theme
              (some "accent")
          ++ lcars_draw_status_bar (width - 280) 220 240 20 (5033165 / 16777216) theme
              (some "warning") := by
  refine ⟨?_, ?_, ?_, ?_, ?_⟩
  · simp [lcars_draw_main_interface_body, call_kind, List.replicate]
  · simp [lcars_draw_main_interface_body, call_kind]
  · simp [lcars_draw_main_interface_body, call_kind, call_slot]
  · simp [lcars_draw_main_interface_body, call_kind, call_slot]
  · simp [lcars_draw_main_interface, lcars_draw_main_interface_body, run_call]

/-- Claim C17: the four status bars of the main interface are drawn at
x = width - 280 and y = 100, 140, 180, 220, 240 by 20, with the fractions
0.75, 0.50, 0.90, 0.30 as `float` values (0.90 is `7549747 / 2 ^ 23` and 0.30
is `5033165 / 2 ^ 24` there) and the slots accent, accent, accent, warning;
each is a track of width 240 in the background slot followed by a filled
portion, of width 180, 120, 216 and 72. -/
theorem main_interface_status_bars (width height : Int) (theme : Option theme_data) :
    status_bars_of (lcars_draw_main_interface_body width height)
        = [lcars_call.status_bar (width - 280) 100 240 20 (3 / 4) "accent",
            lcars_call.status_bar (width - 280) 140 240 20 (1 / 2) "accent",
            lcars_call.status_bar (width - 280) 180 240 20 (7549747 / 8388608) "accent",
            lcars_call.status_bar (width - 280) 220 240 20 (5033165 / 16777216) "warning"]
      ∧ (f32_round (f64_round (3 / 4)) = 3 / 4 ∧ f32_round (f64_round (1 / 2)) = 1 / 2
          ∧ f32_round (f64_round (9 / 10)) = 7549747 / 8388608
          ∧ f32_round (f64_round (3 / 10)) = 5033165 / 16777216)
      ∧ lcars_draw_status_bar (width - 280) 100 240 20 (3 / 4) theme (some "accent")
        = [cairo_op.save, set_source_slot theme (some "background")]
          ++ draw_rounded_rect ((width - 280 : Int) : ℚ) 100 240 20 10
          ++ [cairo_op.fill, set_source_slot theme (some "accent")]
          ++ draw_rounded_rect ((width - 280 : Int) : ℚ) 100 180 20 10
          ++ [cairo_op.fill, cairo_op.restore]
      ∧ lcars_draw_status_bar (width - 280) 140 240 20 (1 / 2) theme (some "accent")
        = [cairo_op.save, set_source_slot theme (some "background")]
          ++ draw_rounded_rect ((width - 280 : Int) : ℚ) 140 240 20 10
          ++ [cairo_op.fill, set_source_slot theme (some "accent")]
          ++ draw_rounded_rect ((width - 280 : Int) : ℚ) 140 120 20 10
          ++ [cairo_op.fill, cairo_op.restore]
      ∧ lcars_draw_status_bar (width - 280) 180 240 20 (7549747 / 8388608) theme
          (some "accent")
        = [cairo_op.save, set_source_slot theme (some "background")]
          ++ draw_rounded_rect ((width - 280 : Int) : ℚ) 180 240 20 10
          ++ [cairo_op.fill, set_source_slot theme (some "accent")]
          ++ draw_rounded_rect ((width - 280 : Int) : ℚ) 180 216 20 10
          ++ [cairo_op.fill, cairo_op.restore]
      ∧ lcars_draw_status_bar (width - 280) 220 240 20 (5033165 / 16777216) theme
          (some "warning")
        = [cairo_op.save, set_source_slot theme (some "background")]
          ++ draw_rounded_rect ((width - 280 : Int) : ℚ) 220 240 20 10
          ++ [cairo_op.fill, set_source_slot theme (some "warning")]
          ++ draw_rounded_rect ((width - 280 : Int) : ℚ) 220 72 20 10
          ++ [cairo_op.fill, cairo_op.restore] := by
  obtain ⟨h1, h2, h3, h4⟩ := value_width_240
  obtain ⟨l1, l2, l3, l4, -, -⟩ := float_of_literals
  refine ⟨?_, ⟨l1, l2, l3, l4⟩, ?_, ?_, ?_, ?_⟩
  · simp [status_bars_of, lcars_draw_main_interface_body, call_kind]
  · simpa using status_bar_240 (width - 280) 100 (3 / 4) 180 theme (some "accent") h1 (by decide)
  · simpa using status_bar_240 (width - 280) 140 (1 / 2) 120 theme (some "accent") h2 (by decide)
  · simpa using status_bar_240 (width - 280) 180 (7549747 / 8388608) 216 theme (some "accent")
      h3 (by decide)
  · simpa using status_bar_240 (width - 280) 220 (5033165 / 16777216) 72 theme (some "warning")
      h4 (by decide)

/-- Claim C18: the settings of `main` are those of the argument loop started
from the defaults `("starfleet", "1920x1080", 60)`; an argument in flag
position that is none of the three flags is stepped over without a change, and
a last argument, one of the three flags included, leaves the settings as they
are.  A flag with a value after it sets its own setting. -/
theorem parse_args_spec (cfg : config_h) (b1 b2 b3 b4 : Bool) (a v : String)
    (rest : List String) (s : cli_settings) :
    (main cfg b1 b2 b3 b4 (a :: rest)).settings = parse_args rest default_settings
      ∧ (main cfg b1 b2 b3 b4 []).settings = default_settings
      ∧ (main cfg b1 b2 b3 b4 [a]).settings = default_settings
      ∧ default_settings = ⟨"starfleet", "1920x1080", 60⟩
      ∧ (a ≠ "--mode" → a ≠ "--resolution" → a ≠ "--refresh" →
          parse_args (a :: rest) s = parse_args rest s)
      ∧ parse_args ["--mode"] s = s
      ∧ parse_args ["--resolution"] s = s
      ∧ parse_args ["--refresh"] s = s
      ∧ parse_args [a] s = s
      ∧ parse_args ("--mode" :: v :: rest) s = parse_args rest { s with mode := v }
      ∧ parse_args ("--resolution" :: v :: rest) s = parse_args rest { s with resolution := v }
      ∧ parse_args ("--refresh" :: v :: rest) s
          = parse_args rest { s with refresh_rate := atoi v } := by
  refine ⟨?_, ?_, ?_, rfl, ?_, rfl, rfl, rfl, rfl, ?_, ?_, ?_⟩
  · unfold main; split_ifs <;> rfl
  · unfold main; split_ifs <;> rfl
  · unfold main; split_ifs <;> rfl
  · intro h1 h2 h3
    rcases rest with _ | ⟨v', rest'⟩
    · rfl
    · simp [parse_args, h1, h2, h3]
  · simp [parse_args]
  · simp [parse_args]
  · simp [parse_args]

/-- Claim C18 on an argument list that starts with the unknown `--verbose`. -/
theorem parse_args_spec_witness :
    parse_args ["--verbose", "--refresh", "75", "--mode"] default_settings
      = parse_args ["--refresh", "75", "--mode"] default_settings :=
  (parse_args_spec ⟨"#CC99CC", "#9999CC", "#FF9966", "#000000"⟩ true true true true
    "--verbose" "" ["--refresh", "75", "--mode"] default_settings).2.2.2.2.1
    (by decide) (by decide) (by decide)

/-- Claim C19 fails as stated: with `--resolution 1920y1080`, which does not
parse, and both initialisations successful, `main` stores no configuration,
enters the event loop and returns 0. -/
theorem main_ignores_malformed_resolution :
    (display_parse_resolution (some "1920y1080")).1 = -1
      ∧ (main ⟨"#CC99CC", "#9999CC", "#FF9966", "#000000"⟩ true true true true
          ["lcars-desktop", "--resolution", "1920y1080"]).settings.resolution = "1920y1080"
      ∧ (main ⟨"#CC99CC", "#9999CC", "#FF9966", "#000000"⟩ true true true true
          ["lcars-desktop", "--resolution", "1920y1080"]).config = none
      ∧ (main ⟨"#CC99CC", "#9999CC", "#FF9966", "#000000"⟩ true true true true
          ["lcars-desktop", "--resolution", "1920y1080"]).event_loop_entered = true
      ∧ (main ⟨"#CC99CC", "#9999CC", "#FF9966", "#000000"⟩ true true true true
          ["lcars-desktop", "--resolution", "1920y1080"]).exit_status = 0 := by
  decide

/-- Claim C19 as amended: a resolution string that does not parse leaves
`state.config` without a configuration, and that is all.  `main` returns 1
exactly when `lcars_init_display` or `lcars_init_egl` fails, and it enters the
event loop and returns 0 exactly when both succeed, whatever the resolution
string. -/
theorem main_exit_status (cfg : config_h)
    (theme_malloc_ok config_malloc_ok init_display_ok init_egl_ok : Bool)
    (argv : List String) :
    ((display_parse_resolution (some
          (main cfg theme_malloc_ok config_malloc_ok init_display_ok init_egl_ok
            argv).settings.resolution)).1 ≠ 0 →
        (main cfg theme_malloc_ok config_malloc_ok init_display_ok init_egl_ok argv).config
          = none)
      ∧ ((main cfg theme_malloc_ok config_malloc_ok init_display_ok init_egl_ok
            argv).exit_status = 1
          ↔ (init_display_ok = false ∨ init_egl_ok = false))
      ∧ ((main cfg theme_malloc_ok config_malloc_ok init_display_ok init_egl_ok
            argv).exit_status = 0
          ↔ (init_display_ok = true ∧ init_egl_ok = true))
      ∧ ((main cfg theme_malloc_ok config_malloc_ok init_display_ok init_egl_ok
            argv).event_loop_entered = true
          ↔ (init_display_ok = true ∧ init_egl_ok = true)) := by
  have hs : (main cfg theme_malloc_ok config_malloc_ok init_display_ok init_egl_ok
      argv).settings = parse_args argv.tail default_settings := by
    unfold main; split_ifs <;> rfl
  have hc : (main cfg theme_malloc_ok config_malloc_ok init_display_ok init_egl_ok
      argv).config = display_config_create config_malloc_ok
        (parse_args argv.tail default_settings).resolution
        (parse_args argv.tail default_settings).refresh_rate := by
    unfold main; split_ifs <;> rfl
  refine ⟨?_, ?_, ?_, ?_⟩
  · rw [hs, hc]
    intro hne
    unfold display_config_create
    cases config_malloc_ok
    · simp
    · simp only [Bool.true_eq_false, if_false]
      split
      · rename_i w h heq
        rw [heq] at hne
        simp at hne
      · rfl
  · cases init_display_ok <;> cases init_egl_ok <;> simp [main]
  · cases init_display_ok <;> cases init_egl_ok <;> simp [main]
  · cases init_display_ok <;> cases init_egl_ok <;> simp [main]

/-- Claim C19 as amended, with `--resolution 0x600`. -/
theorem main_exit_status_witness :
    (main ⟨"#CC99CC", "#9999CC", "#FF9966", "#000000"⟩ true true true true
        ["lcars-desktop", "--resolution", "0x600"]).config = none :=
  (main_exit_status ⟨"#CC99CC", "#9999CC", "#FF9966", "#000000"⟩ true true true true
    ["lcars-desktop", "--resolution", "0x600"]).1 (by decide)

/-- Claim C20: when `button.x + button.width` and `button.y + button.height`
are in the range of `int`, `lcars_button_contains` returns 1 exactly for the
points with `button.x <= x < button.x + button.width` and
`button.y <= y < button.y + button.height` and 0 for all others; it returns 0
for a `NULL` button, and a button whose width or height is not positive
contains no point. -/
theorem button_contains_spec (b : lcars_button_t) (x y : Int)
    (hx : in_int_range (b.x + b.width)) (hy : in_int_range (b.y + b.height)) :
    (lcars_button_contains (some b) x y = 1
        ↔ (b.x ≤ x ∧ x < b.x + b.width ∧ b.y ≤ y ∧ y < b.y + b.height))
      ∧ (lcars_button_contains (some b) x y = 0
        ↔ ¬ (b.x ≤ x ∧ x < b.x + b.width ∧ b.y ≤ y ∧ y < b.y + b.height))
      ∧ lcars_button_contains none x y = 0
      ∧ (b.width ≤ 0 ∨ b.height ≤ 0 → lcars_button_contains (some b) x y = 0) := by
  have e1 := int_add_of_in_range hx
  have e2 := int_add_of_in_range hy
  simp only [lcars_button_contains, e1, e2, ge_iff_le]
  refine ⟨?_, ?_, trivial, ?_⟩
  · split_ifs with h <;> simp [h]
  · split_ifs with h <;> simp [h]
  · intro hw
    rw [if_neg]
    omega

/-- Claim C20 on the first button of the main interface: the point
`(179, 119)` is inside, the point `(180, 119)` is not. -/
theorem button_contains_spec_witness :
    lcars_button_contains
        (some ⟨20, 80, 160, 40, 10, some "LCARS MAIN", some "accent", 0, none, none⟩) 179 119 = 1
      ∧ lcars_button_contains
        (some ⟨20, 80, 160, 40, 10, some "LCARS MAIN", some "accent", 0, none, none⟩) 180 119 = 0 :=
  ⟨(button_contains_spec ⟨20, 80, 160, 40, 10, some "LCARS MAIN", some "accent", 0, none, none⟩
      179 119 ⟨by decide, by decide⟩ ⟨by decide, by decide⟩).1.2 (by decide),
    (button_contains_spec ⟨20, 80, 160, 40, 10, some "LCARS MAIN", some "accent", 0, none, none⟩
      180 119 ⟨by decide, by decide⟩ ⟨by decide, by decide⟩).2.1.2 (by decide)⟩

/-- Claim C21: `display_set_mode` returns 0 exactly for the strings that are
equal to one of the ten entries of `display_get_modes` (`"1920x1080"` first,
`"800x600"` last) and -1 for every other string. -/
theorem display_set_mode_spec (mode : String) :
    (display_set_mode mode = 0 ↔ mode ∈ display_get_modes)
      ∧ (display_set_mode mode = -1 ↔ mode ∉ display_get_modes)
      ∧ display_get_modes.length = 10
      ∧ display_get_modes.head? = some "1920x1080"
      ∧ display_get_modes.getLast? = some "800x600" := by
  have h0 := display_set_mode_loop_eq_zero_iff display_get_modes mode
  refine ⟨h0, ?_, rfl, rfl, rfl⟩
  unfold display_set_mode
  rcases display_set_mode_loop_ret display_get_modes mode with h | h
  · rw [h]
    simp only [← h0, h]
    decide
  · rw [h]
    simp only [← h0, h]
    decide

/-- Claim C21 on `"1366x768"` (supported), `"640x480"` and `"1920X1080"`
(rejected). -/
theorem display_set_mode_spec_witness :
    display_set_mode "1366x768" = 0 ∧ display_set_mode "640x480" = -1
      ∧ display_set_mode "1920X1080" = -1 :=
  ⟨(display_set_mode_spec "1366x768").1.2 (by decide),
    (display_set_mode_spec "640x480").2.1.2 (by decide),
    (display_set_mode_spec "1920X1080").2.1.2 (by decide)⟩

/-- Claim C22: when the surface size is the width and height of one of the
ten supported display modes, the path calls of `lcars_draw_main_interface` are
those of 18 rounded rectangles (3 panels, 7 buttons, 4 status-bar tracks and 4
filled portions), and in each of them the radius does not exceed half of the
smaller of width and height. -/
theorem main_interface_radius_fits_modes (p : String → String → Int × Int)
    (theme : Option theme_data) (m : String) (width height : Int)
    (hm : m ∈ display_get_modes)
    (hp : display_parse_resolution (some m) = (0, some width, some height)) :
    (lcars_draw_main_interface p width height theme).filter is_path_op
        = (main_interface_rounded_rects width height).flatMap
            (fun r => draw_rounded_rect r.x r.y r.width r.height r.radius)
      ∧ (main_interface_rounded_rects width height).length = 18
      ∧ ∀ r ∈ main_interface_rounded_rects width height, radius_fits r := by
  refine ⟨filter_path_flatMap p theme _, by rw [main_interface_rounded_rects_eq]; rfl, ?_⟩
  have hb := display_get_modes_bounds hm hp
  exact main_interface_radius_fits (by omega) (by omega)

/-- Claim C22 at the smallest mode, 800 x 600: 18 rounded rectangles, among
them the middle panel `(220, 80, 260, 400)` and the shortest filled portion
`(520, 220, 72, 20)`, both with radius 10. -/
theorem main_interface_radius_fits_modes_witness :
    (main_interface_rounded_rects 800 600).length = 18
      ∧ radius_fits ⟨220, 80, 260, 400, 10⟩ ∧ radius_fits ⟨520, 220, 72, 20, 10⟩ :=
  ⟨(main_interface_radius_fits_modes (fun _ _ => (0, 0)) none "800x600" 800 600 (by decide)
      (by decide)).2.1,
    (main_interface_radius_fits_modes (fun _ _ => (0, 0)) none "800x600" 800 600 (by decide)
      (by decide)).2.2 ⟨220, 80, 260, 400, 10⟩
      (by rw [main_interface_rounded_rects_eq]; decide),
    (main_interface_radius_fits_modes (fun _ _ => (0, 0)) none "800x600" 800 600 (by decide)
      (by decide)).2.2 ⟨520, 220, 72, 20, 10⟩
      (by rw [main_interface_rounded_rects_eq]; decide)⟩

/-- Claim C23: with `text_width` and `text_height` the measured size of the
label in pixels, `lcars_draw_button` moves to
`(x + (width - text_width) / 2, y + (height - text_height) / 2)`, the
divisions truncating toward zero, before it shows the label.  The margin left
of the label and the margin right of it differ by at most 1, and so do the
margins above and below, whatever the sign of `width - text_width` and of
`height - text_height`; label and margins add up to the button. -/
theorem button_label_centred (p : String → String → Int × Int)
    (x y width height radius : Int) (theme : Option theme_data) (color_key : Option String)
    (label : String) (text_width text_height : Int)
    (hw : Int.tdiv (p "LCARS 12" label).1 PANGO_SCALE = text_width)
    (hh : Int.tdiv (p "LCARS 12" label).2 PANGO_SCALE = text_height) :
    lcars_draw_button p x y width height radius theme color_key label
        = [cairo_op.save, set_source_slot theme color_key]
          ++ draw_rounded_rect x y width height radius
          ++ [cairo_op.fill, set_source_slot theme (some "text"),
              cairo_op.move_to ((x + Int.tdiv (width - text_width) 2 : Int) : ℚ)
                ((y + Int.tdiv (height - text_height) 2 : Int) : ℚ),
              cairo_op.show_layout "LCARS 12" label,
              cairo_op.restore]
      ∧ |(width - text_width - Int.tdiv (width - text_width) 2)
          - Int.tdiv (width - text_width) 2| ≤ 1
      ∧ |(height - text_height - Int.tdiv (height - text_height) 2)
          - Int.tdiv (height - text_height) 2| ≤ 1
      ∧ (x + Int.tdiv (width - text_width) 2) + text_width
          + (width - text_width - Int.tdiv (width - text_width) 2) = x + width
      ∧ (y + Int.tdiv (height - text_height) 2) + text_height
          + (height - text_height - Int.tdiv (height - text_height) 2) = y + height := by
  refine ⟨?_, ?_, ?_, by ring, by ring⟩
  · simp only [lcars_draw_button, hw, hh]
  · exact tdiv_two_margin (width - text_width)
  · exact tdiv_two_margin (height - text_height)

/-- Claim C23 on a label of 171 x 15 pixels in a button of 160 x 40 at
`(20, 80)`: the label is wider than the button and starts at `(15, 92)`. -/
theorem button_label_centred_witness :
    lcars_draw_button (fun _ _ => (175104, 15360)) 20 80 160 40 10 none (some "accent")
        "LCARS MAIN"
      = [cairo_op.save, set_source_slot none (some "accent")]
        ++ draw_rounded_rect 20 80 160 40 10
        ++ [cairo_op.fill, set_source_slot none (some "text"),
            cairo_op.move_to 15 92,
            cairo_op.show_layout "LCARS 12" "LCARS MAIN",
            cairo_op.restore] := by
  have h := (button_label_centred (fun _ _ => (175104, 15360)) 20 80 160 40 10 none
    (some "accent") "LCARS MAIN" 171 15 (by decide) (by decide)).1
  have ex : (20 + Int.tdiv (160 - 171) 2 : Int) = 15 := by decide
  have ey : (80 + Int.tdiv (40 - 15) 2 : Int) = 92 := by decide
  rw [ex, ey] at h
  simpa using h

/-- Claim C24: for every surface width of at least 200 and height of at least
120 the three bands of `lcars_draw_main_interface` are `(0, 0, w, 60)`,
`(0, 60, 200, h - 60)` and `(200, h - 60, w - 200, 60)`; no pixel lies in two
of them; every pixel of the surface lies in exactly one of the three bands and
the content rectangle `(200, 60, w - 200, h - 120)`; and these four rectangles
do not leave the surface. -/
theorem main_interface_bands_tile (width height px py : Int)
    (hw : 200 ≤ width) (hh : 120 ≤ height) :
    bands_of (lcars_draw_main_interface_body width height)
        = [⟨0, 0, width, 60⟩, ⟨0, 60, 200, height - 60⟩, ⟨200, height - 60, width - 200, 60⟩]
      ∧ ((bands_of (lcars_draw_main_interface_body width height)).filter
            (fun r => r.contains px py)).length ≤ 1
      ∧ (0 ≤ px → px < width → 0 ≤ py → py < height →
          ((bands_of (lcars_draw_main_interface_body width height)
              ++ [content_rect width height]).filter (fun r => r.contains px py)).length = 1)
      ∧ (∀ r ∈ bands_of (lcars_draw_main_interface_body width height)
              ++ [content_rect width height],
          r.contains px py = true → 0 ≤ px ∧ px < width ∧ 0 ≤ py ∧ py < height) := by
  have hb : bands_of (lcars_draw_main_interface_body width height)
      = [⟨0, 0, width, 60⟩, ⟨0, 60, 200, height - 60⟩,
          ⟨200, height - 60, width - 200, 60⟩] := by
    simp [lcars_draw_main_interface_body, bands_of]
  have e1 := rect_contains_iff ⟨0, 0, width, 60⟩ px py
  have e2 := rect_contains_iff ⟨0, 60, 200, height - 60⟩ px py
  have e3 := rect_contains_iff ⟨200, height - 60, width - 200, 60⟩ px py
  have e4 := rect_contains_iff ⟨200, 60, width - 200, height - 120⟩ px py
  simp only at e1 e2 e3 e4
  refine ⟨hb, ?_, ?_, ?_⟩
  · rw [hb]
    simp only [List.filter]
    generalize rect.contains ⟨0, 0, width, 60⟩ px py = c1 at e1 ⊢
    generalize rect.contains ⟨0, 60, 200, height - 60⟩ px py = c2 at e2 ⊢
    generalize rect.contains ⟨200, height - 60, width - 200, 60⟩ px py = c3 at e3 ⊢
    cases c1 <;> cases c2 <;> cases c3 <;> simp only [List.length] <;>
      first
        | omega
        | (simp only [true_iff] at e1 e2 e3; omega)
  · intro hx0 hx1 hy0 hy1
    rw [hb]
    simp only [List.cons_append, List.nil_append, List.filter, content_rect]
    generalize rect.contains ⟨0, 0, width, 60⟩ px py = c1 at e1 ⊢
    generalize rect.contains ⟨0, 60, 200, height - 60⟩ px py = c2 at e2 ⊢
    generalize rect.contains ⟨200, height - 60, width - 200, 60⟩ px py = c3 at e3 ⊢
    generalize rect.contains ⟨200, 60, width - 200, height - 120⟩ px py = c4 at e4 ⊢
    cases c1 <;> cases c2 <;> cases c3 <;> cases c4 <;> simp only [List.length] <;>
      first
        | rfl
        | (simp only [true_iff, false_iff, Bool.false_eq_true] at e1 e2 e3 e4; omega)
  · intro r hr hc
    rw [hb] at hr
    simp only [List.cons_append, List.nil_append, List.mem_cons, List.mem_singleton,
      List.not_mem_nil, or_false, content_rect] at hr
    rcases hr with rfl | rfl | rfl | rfl
    · have := e1.1 hc; omega
    · have := e2.1 hc; omega
    · have := e3.1 hc; omega
    · have := e4.1 hc; omega

/-- Claim C24 at 1920 x 1080 for the pixel `(199, 1079)`. -/
theorem main_interface_bands_tile_witness :
    ((bands_of (lcars_draw_main_interface_body 1920 1080)
        ++ [content_rect 1920 1080]).filter (fun r => r.contains 199 1079)).length = 1 :=
  (main_interface_bands_tile 1920 1080 199 1079 (by decide) (by decide)).2.2.1
    (by decide) (by decide) (by decide) (by decide)

/-- Claim C25: every entry of `display_get_modes` is the decimal text of a
width, `x` and the decimal text of a height; `display_parse_resolution`
returns 0 on it with exactly this width and height, which are at least 800
and 600.  Hence `display_set_mode (s) = 0` implies that
`display_parse_resolution (s)` succeeds; the converse fails for `"640x480"`. -/
theorem display_get_modes_parse (s : String) :
    (∀ m ∈ display_get_modes, ∃ w h : Nat,
        m = Nat.repr w ++ "x" ++ Nat.repr h
          ∧ display_parse_resolution (some m) = (0, some (w : Int), some (h : Int))
          ∧ 800 ≤ w ∧ 600 ≤ h)
      ∧ (display_set_mode s = 0 → (display_parse_resolution (some s)).1 = 0)
      ∧ (display_parse_resolution (some "640x480")).1 = 0
      ∧ display_set_mode "640x480" = -1 := by
  have hall : ∀ m ∈ display_get_modes, ∃ w h : Nat,
      m = Nat.repr w ++ "x" ++ Nat.repr h
        ∧ display_parse_resolution (some m) = (0, some (w : Int), some (h : Int))
        ∧ 800 ≤ w ∧ 600 ≤ h := by
    intro m hm
    simp only [display_get_modes, List.mem_cons, List.mem_singleton, List.not_mem_nil,
      or_false] at hm
    rcases hm with rfl | rfl | rfl | rfl | rfl | rfl | rfl | rfl | rfl | rfl
    · exact ⟨1920, 1080, by decide, by decide, by decide, by decide⟩
    · exact ⟨1680, 1050, by decide, by decide, by decide, by decide⟩
    · exact ⟨1600, 900, by decide, by decide, by decide, by decide⟩
    · exact ⟨1440, 900, by decide, by decide, by decide, by decide⟩
    · exact ⟨1366, 768, by decide, by decide, by decide, by decide⟩
    · exact ⟨1280, 1024, by decide, by decide, by decide, by decide⟩
    · exact ⟨1280, 800, by decide, by decide, by decide, by decide⟩
    · exact ⟨1280, 720, by decide, by decide, by decide, by decide⟩
    · exact ⟨1024, 768, by decide, by decide, by decide, by decide⟩
    · exact ⟨800, 600, by decide, by decide, by decide, by decide⟩
  refine ⟨hall, ?_, by decide, by decide⟩
  intro h0
  have hm : s ∈ display_get_modes := (display_set_mode_loop_eq_zero_iff _ _).1 h0
  obtain ⟨w, h, -, hp, -, -⟩ := hall s hm
  rw [hp]

/-- Claim C25 on `"1024x768"`. -/
theorem display_get_modes_parse_witness :
    (display_parse_resolution (some "1024x768")).1 = 0 :=
  (display_get_modes_parse "1024x768").2.1 (by decide)

end Lcars
